import Mathlib

/-!
Verification of the bookzify.api scraping/ingest server (src/index.js).

This file shallowly embeds the parts of the server the specification talks
about: the JavaScript number semantics used by the search endpoint
(`parseInt`, `Math.ceil`, division, `Array.slice`), the two source-specific
search functions (`searchEbookHunter`, `searchAnnasArchive`), the dedup check
(`checkBookExists`), the storage upload/insert helper
(`uploadToSupabaseStorage`) and the `POST /books/download` retry loop.
Browser and network behaviour is abstracted into environment records whose
fields decide the outcome of each external interaction; the control flow of
the handlers themselves is translated line by line from the source.
-/

namespace Bookzify

/-! ## JavaScript number model

The search endpoint computes `parseInt(...)`, `(page - 1) * limit`,
`Math.ceil(total / limit)` and `Array.slice` on untrusted query strings.
`JVal` models the JavaScript doubles that can arise there: finite values
(all values in play are integers or simple ratios, so ℚ suffices), the two
infinities, and NaN. -/

/-! String helpers over `List Char`, so that concrete instances reduce in
the kernel. -/

def strStartsWith (s p : String) : Bool :=
  p.data.isPrefixOf s.data

def strEndsWith (s p : String) : Bool :=
  p.data.isSuffixOf s.data

def listHasInfix (pat : List Char) : List Char → Bool
  | [] => pat.isPrefixOf []
  | c :: cs => pat.isPrefixOf (c :: cs) || listHasInfix pat cs

/-- JavaScript `s.includes(pat)`. -/
def strIncludes (s pat : String) : Bool :=
  listHasInfix pat.data s.data

inductive JVal where
  | rat (q : ℚ)
  | inf
  | neginf
  | nan
deriving DecidableEq, Repr

def JVal.isFinite : JVal → Bool
  | .rat _ => true
  | _ => false

/-! The four rational operations are written with `Rat.divInt`, which the
kernel can evaluate (`Rat.add`, `Rat.sub`, `Rat.mul` and `Rat.inv` are all
`@[irreducible]`); the lemmas `ratAddC_eq` etc. identify them with the
field operations of ℚ. -/

def ratAddC (a b : ℚ) : ℚ :=
  Rat.divInt (a.num * (b.den : ℤ) + b.num * (a.den : ℤ)) ((a.den : ℤ) * (b.den : ℤ))

def ratSubC (a b : ℚ) : ℚ :=
  Rat.divInt (a.num * (b.den : ℤ) - b.num * (a.den : ℤ)) ((a.den : ℤ) * (b.den : ℤ))

def ratMulC (a b : ℚ) : ℚ :=
  Rat.divInt (a.num * b.num) ((a.den : ℤ) * (b.den : ℤ))

def jsSub : JVal → JVal → JVal
  | .nan, _ => .nan
  | _, .nan => .nan
  | .rat a, .rat b => .rat (ratSubC a b)
  | .inf, .inf => .nan
  | .neginf, .neginf => .nan
  | .inf, _ => .inf
  | .neginf, _ => .neginf
  | .rat _, .inf => .neginf
  | .rat _, .neginf => .inf

def jsMul : JVal → JVal → JVal
  | .nan, _ => .nan
  | _, .nan => .nan
  | .rat a, .rat b => .rat (ratMulC a b)
  | .inf, .rat b => if b = 0 then .nan else if 0 < b then .inf else .neginf
  | .rat a, .inf => if a = 0 then .nan else if 0 < a then .inf else .neginf
  | .neginf, .rat b => if b = 0 then .nan else if 0 < b then .neginf else .inf
  | .rat a, .neginf => if a = 0 then .nan else if 0 < a then .neginf else .inf
  | .inf, .inf => .inf
  | .neginf, .neginf => .inf
  | .inf, .neginf => .neginf
  | .neginf, .inf => .neginf

def jsAdd : JVal → JVal → JVal
  | .nan, _ => .nan
  | _, .nan => .nan
  | .rat a, .rat b => .rat (ratAddC a b)
  | .inf, .neginf => .nan
  | .neginf, .inf => .nan
  | .inf, _ => .inf
  | _, .inf => .inf
  | .neginf, _ => .neginf
  | _, .neginf => .neginf

/-- Exact division of rationals, written with `Rat.divInt` so that concrete
values reduce in the kernel (`Rat.inv`, hence `/`, is irreducible). For
`b ≠ 0` this equals `a / b`; see `ratDivC_eq_div`. -/
def ratDivC (a b : ℚ) : ℚ :=
  Rat.divInt (a.num * (b.den : ℤ)) ((a.den : ℤ) * b.num)

/-- JavaScript division; in particular `x / 0` is `Infinity` for positive
`x`, `-Infinity` for negative `x` and `NaN` for `x = 0`. -/
def jsDiv : JVal → JVal → JVal
  | .nan, _ => .nan
  | _, .nan => .nan
  | .rat a, .rat b =>
      if b = 0 then (if 0 < a then .inf else if a < 0 then .neginf else .nan)
      else .rat (ratDivC a b)
  | .rat _, .inf => .rat 0
  | .rat _, .neginf => .rat 0
  | .inf, .rat b => if 0 ≤ b then .inf else .neginf
  | .neginf, .rat b => if 0 ≤ b then .neginf else .inf
  | .inf, .inf => .nan
  | .inf, .neginf => .nan
  | .neginf, .inf => .nan
  | .neginf, .neginf => .nan

/-- `Math.ceil`: identity on NaN and the infinities. -/
def jsCeil : JVal → JVal
  | .rat q => .rat ((q.ceil : ℤ) : ℚ)
  | v => v

/-- Truncation toward zero, as ECMAScript ToIntegerOrInfinity does. -/
def ratTrunc (q : ℚ) : ℤ :=
  if 0 ≤ q then q.floor else q.ceil

/-- Clamp one `Array.slice` bound to `[0, len]` per ECMAScript: NaN becomes
0, negative values count from the end. -/
def jsToIndex (v : JVal) (len : ℕ) : ℕ :=
  match v with
  | .nan => 0
  | .neginf => 0
  | .inf => len
  | .rat q =>
      let i := ratTrunc q
      if i < 0 then (max ((len : ℤ) + i) 0).toNat
      else min i.toNat len

/-- `Array.prototype.slice(s, e)`. -/
def jsSlice {α : Type} (xs : List α) (s e : JVal) : List α :=
  (xs.take (jsToIndex e xs.length)).drop (jsToIndex s xs.length)

/-- `parseInt(s, 10)`: skip leading whitespace, optional sign, longest
digit run; NaN if no digits. -/
def jsParseInt (s : String) : JVal :=
  let cs := s.data.dropWhile (fun c => c = ' ' ∨ c = '\t' ∨ c = '\n' ∨ c = '\r')
  let signAndRest : ℤ × List Char :=
    match cs with
    | '-' :: rest => (-1, rest)
    | '+' :: rest => (1, rest)
    | _ => (1, cs)
  let ds := signAndRest.2.takeWhile Char.isDigit
  if ds.isEmpty then .nan
  else .rat ((signAndRest.1 * ds.foldl (fun a c => a * 10 + ((c.toNat : ℤ) - 48)) 0 : ℤ) : ℚ)

/-- JavaScript `a || b` on strings / absent values: the empty string and
`undefined` are falsy. -/
def jsOrOpt (o : Option String) (d : String) : String :=
  match o with
  | none => d
  | some s => if s = "" then d else s

/-- JavaScript `a || b` where the fallback is `null` (modelled as `none`). -/
def jsOrNull (s : String) : Option String :=
  if s = "" then none else some s

/-! ## Book sources (src/index.js lines 515-527) -/

def BOOK_SOURCES : List (String × String) :=
  [("ebook-hunter", "https://ebook-hunter.org"),
   ("annas-archive", "https://annas-archive.org")]

def DEFAULT_SOURCE : String := "ebook-hunter"

def isBookSource (s : String) : Bool :=
  (BOOK_SOURCES.filter (fun p => p.1 = s)).length > 0

def getBaseUrl (source : String) : String :=
  match (BOOK_SOURCES.filter (fun p => p.1 = source)).head? with
  | some p => p.2
  | none => "https://ebook-hunter.org"

/-! ## Search model

`ListingMeta` is one entry of the `bookMetadata` array produced by the
listing-page `evaluate` call; `ResolveResult` is what the per-book detail
resolution (`getBookDownloadUrl` / `getAnnasArchiveDownloadUrl`) returns.
Since both come from a live third-party page, they are inputs of the model:
the environment provides the listing array and, indexed by position in the
processed prefix, the outcome of each detail resolution. A `.error` outcome
models an exception thrown inside the per-book loop body (e.g. by
`context.newPage()`); the detail functions themselves catch navigation
errors and surface them as an empty `downloadUrl`. -/

structure ListingMeta where
  title : String
  author : String
  format : String
  date : String
  category : String
  bookUrl : String
  coverImageUrl : String
  source : String
deriving DecidableEq, Repr

structure ResolveResult where
  downloadUrl : String
  coverImageUrl : String
deriving DecidableEq, Repr

structure Book where
  id : String
  title : String
  author : String
  format : String
  date : String
  category : String
  bookUrl : String
  coverImageUrl : String
  source : String
  downloadUrl : String
deriving DecidableEq, Repr

structure SearchEnv where
  launchOutcome : Except String Unit
  navOutcome : Except String Unit
  listings : List ListingMeta
  resolve : ℕ → Except Unit ResolveResult
  newId : ℕ → String

/-- The regex match `bookUrl.match(/\/([^/]+)\/$/)` of
`extractCoverImageUrl`: the last path segment when the URL ends in a slash
and the segment is preceded by a slash. -/
def bookIdOf (bookUrl : String) : Option String :=
  if strEndsWith bookUrl "/" then
    let t := bookUrl.data.dropLast
    let seg := (t.reverse.takeWhile (fun c => c ≠ '/')).reverse
    if seg.length > 0 ∧ seg.length < t.length then some (String.mk seg) else none
  else none

/-- `extractCoverImageUrl` from `searchEbookHunter` (src/index.js 2049-2062). -/
def extractCoverImageUrl (bookUrl existingImageUrl : String) : String :=
  if existingImageUrl ≠ "" ∧ strStartsWith existingImageUrl "http" then
    existingImageUrl
  else
    match bookIdOf bookUrl with
    | none => ""
    | some bookId => "https://img.ebook-hunter.org/img/" ++ bookId ++ "_small.jpg"

/-- The sequential per-book loop of `searchEbookHunter`
(src/index.js 2108-2127): resolve each of the first 20 listings, keep only
those with a non-empty `downloadUrl`, skip entries whose loop body threw. -/
def ehResolveLoop (resolve : ℕ → Except Unit ResolveResult) (newId : ℕ → String) :
    List ListingMeta → ℕ → List Book
  | [], _ => []
  | m :: rest, i =>
    match resolve i with
    | .error _ => ehResolveLoop resolve newId rest (i + 1)
    | .ok r =>
      if r.downloadUrl ≠ "" then
        { id := newId i, title := m.title, author := m.author, format := m.format,
          date := m.date, category := m.category, bookUrl := m.bookUrl,
          coverImageUrl :=
            extractCoverImageUrl m.bookUrl
              (jsOrOpt (some m.coverImageUrl) (jsOrOpt (some r.coverImageUrl) "")),
          source := m.source, downloadUrl := r.downloadUrl } ::
        ehResolveLoop resolve newId rest (i + 1)
      else ehResolveLoop resolve newId rest (i + 1)

/-- `searchEbookHunter` (src/index.js 1957-2130): it has no try/catch of its
own, so a navigation failure propagates to the endpoint's handler. -/
def searchEbookHunter (env : SearchEnv) : Except String (List Book) :=
  match env.navOutcome with
  | .error e => .error e
  | .ok _ => .ok (ehResolveLoop env.resolve env.newId (env.listings.take 20) 0)

/-- The per-book loop of `searchAnnasArchive` (src/index.js 1879-1898):
first 15 listings, keep non-empty download URLs. -/
def aaResolveLoop (resolve : ℕ → Except Unit ResolveResult) (newId : ℕ → String) :
    List ListingMeta → ℕ → List Book
  | [], _ => []
  | m :: rest, i =>
    match resolve i with
    | .error _ => aaResolveLoop resolve newId rest (i + 1)
    | .ok r =>
      if r.downloadUrl ≠ "" then
        { id := newId i, title := m.title, author := m.author, format := m.format,
          date := m.date, category := m.category, bookUrl := m.bookUrl,
          coverImageUrl := jsOrOpt (some r.coverImageUrl) m.coverImageUrl,
          source := m.source, downloadUrl := r.downloadUrl } ::
        aaResolveLoop resolve newId rest (i + 1)
      else aaResolveLoop resolve newId rest (i + 1)

/-- `searchAnnasArchive` (src/index.js 1810-1905): its whole body is wrapped
in a try/catch that returns `[]` on error. -/
def searchAnnasArchive (env : SearchEnv) : List Book :=
  match env.navOutcome with
  | .error _ => []
  | .ok _ => aaResolveLoop env.resolve env.newId (env.listings.take 15) 0

/-- The source dispatch of the search handler (src/index.js 1752-1758). -/
def scrapedBooks (env : SearchEnv) (source : String) : Except String (List Book) :=
  if source = "annas-archive" then .ok (searchAnnasArchive env)
  else searchEbookHunter env

structure SearchReq where
  query : Option String
  page : Option String
  limit : Option String
  source : Option String

inductive SearchResp where
  | invalidParams (error message : String)
  | serverError (message : String)
  | ok (books : List Book) (total : ℕ) (page : JVal) (totalPages : JVal) (source : String)
deriving DecidableEq, Repr

inductive Ev where
  | dedupCheck
  | launch
  | closeBrowser
  | attemptStart (n : ℕ)
  | saveFile (path : String)
  | deleteFile (path : String)
  | verified (size : ℕ)
  | upload (path : String)
  | insertRow (id : String)
  | removeObject (path : String)
deriving DecidableEq, Repr

/-- The `GET /books/search` handler (src/index.js 1688-1807). -/
def booksSearch (env : SearchEnv) (req : SearchReq) : SearchResp × List Ev :=
  let query := jsOrOpt req.query ""
  let page := jsParseInt (jsOrOpt req.page "1")
  let limit := jsParseInt (jsOrOpt req.limit "10")
  let source := jsOrOpt req.source DEFAULT_SOURCE
  if query = "" then
    (.invalidParams "Invalid search parameters" "Query parameter is required", [])
  else if ¬ isBookSource source then
    (.invalidParams "Invalid source" "Source must be one of: ebook-hunter, annas-archive", [])
  else
    match env.launchOutcome with
    | .error e => (.serverError e, [])
    | .ok _ =>
      match scrapedBooks env source with
      | .error e => (.serverError e, [.launch, .closeBrowser])
      | .ok allBooks =>
        let startIndex := jsMul (jsSub page (.rat 1)) limit
        let endIndex := jsAdd startIndex limit
        let paginatedBooks := jsSlice allBooks startIndex endIndex
        (.ok paginatedBooks allBooks.length page
           (jsCeil (jsDiv (.rat (allBooks.length : ℚ)) limit)) source,
         [.launch, .closeBrowser])

/-! ## Database model and dedup check

`BookRow` is the `books` table row shape built in `uploadToSupabaseStorage`
(src/index.js 597-614), restricted to the fields the pipeline reads back.
Nullable columns are `Option String`. -/

structure BookRow where
  id : String
  title : String
  author : String
  format : String
  category : Option String
  book_url : Option String
  cover_image_url : Option String
  download_url : Option String
  s3_bucket_id : String
  s3_bucket_url : String
deriving DecidableEq, Repr

abbrev DB := List BookRow

/-- `checkBookExists` (src/index.js 650-738): a PostgREST `.single()` query
filtered on exact equality of `download_url`. No row is the handled
"PGRST116" case and yields `null`; more than one row is an error that the
function rethrows. -/
def checkBookExists (db : DB) (downloadUrl : String) : Except String (Option BookRow) :=
  match db.filter (fun r => r.download_url = some downloadUrl) with
  | [] => .ok none
  | [r] => .ok (some r)
  | _ :: _ :: _ => .error "JSON object requested, multiple rows returned"

/-! ## Filename handling in `uploadToSupabaseStorage` (src/index.js 538-552) -/

def jsIsWordChar (c : Char) : Bool := c.isAlphanum || c = '_'

def jsIsSpace (c : Char) : Bool := c = ' ' || c = '\t' || c = '\n' || c = '\r'

/-- `.replace(/\s+/g, '_')`: each maximal whitespace run becomes one `_`.
The flag records whether the previous character was whitespace. -/
def collapseSpaces : List Char → Bool → List Char
  | [], _ => []
  | c :: cs, prevWs =>
    if jsIsSpace c then
      if prevWs then collapseSpaces cs true else '_' :: collapseSpaces cs true
    else c :: collapseSpaces cs false

/-- `.replace(/_{2,}/g, '_')`. -/
def squeezeUnderscores : List Char → Bool → List Char
  | [], _ => []
  | c :: cs, prev =>
    if c = '_' then
      if prev then squeezeUnderscores cs true else '_' :: squeezeUnderscores cs true
    else c :: squeezeUnderscores cs false

/-- `.replace(/^_+|_+$/g, '')`. -/
def trimUnderscores (l : List Char) : List Char :=
  ((l.dropWhile (fun c => c = '_')).reverse.dropWhile (fun c => c = '_')).reverse

def sanitizeFilename (filename : String) : String :=
  let s1 := filename.data.filter (fun c => jsIsWordChar c || jsIsSpace c || c = '.' || c = '-')
  let s2 := collapseSpaces s1 false
  let s3 := squeezeUnderscores s2 false
  String.mk ((trimUnderscores s3).take 100)

/-- `path.extname` for plain file names. -/
def extname (s : String) : String :=
  let r := s.data.reverse
  let tail := r.takeWhile (fun c => c ≠ '.')
  if tail.length = r.length then ""
  else if tail.length + 1 = r.length then ""
  else "." ++ String.mk tail.reverse

def strToLower (s : String) : String := String.mk (s.data.map Char.toLower)

/-- `getContentType` (src/index.js 555-568). -/
def getContentType (filename : String) : String :=
  let ext := strToLower (extname filename)
  if ext = ".pdf" then "application/pdf"
  else if ext = ".epub" then "application/epub+zip"
  else if ext = ".mobi" then "application/x-mobipocket-ebook"
  else if ext = ".azw" then "application/vnd.amazon.ebook"
  else if ext = ".azw3" then "application/vnd.amazon.ebook"
  else if ext = ".txt" then "text/plain"
  else if ext = ".doc" then "application/msword"
  else if ext = ".docx" then
    "application/vnd.openxmlformats-officedocument.wordprocessingml.document"
  else "application/octet-stream"

/-! ## Download endpoint model (src/index.js 2142-2601)

Outcomes of every browser, filesystem and Supabase interaction come from an
`IngestEnv`, indexed by the attempt number (1-based) where the code can
perform the interaction once per retry. A simulated wall clock `now`
advances by the code's own literal waits (2000 ms per button poll, 1000 ms
after save, 3000 ms after reload) plus an environment-chosen duration for
the download phase; `startTime` is captured once, before the retry loop,
exactly as `const startTime = Date.now()` is (line 2318). -/

structure JsErr where
  name : String
  message : String
deriving DecidableEq, Repr

inductive DlWaitOutcome where
  | timeoutPlaywright
  | timeoutRace
  | timeoutBackup
  | fired (filename : String)
deriving DecidableEq, Repr

/-- The error produced when no download event arrives: one of the three
racing timeout promises wins (src/index.js 2390-2437). Playwright's own
`waitForEvent` rejection carries the `TimeoutError` name and a capitalized
message; the two hand-rolled timers throw plain `Error`s. -/
def dlWaitErr : DlWaitOutcome → JsErr
  | .timeoutPlaywright =>
      ⟨"TimeoutError", "Timeout 90000ms exceeded while waiting for event download"⟩
  | .timeoutRace => ⟨"Error", "Download timeout - no download detected in 90 seconds"⟩
  | .timeoutBackup => ⟨"Error", "Download backup timeout"⟩
  | .fired _ => ⟨"Error", ""⟩

structure UploadOk where
  id : String
  s3_bucket_url : String
  s3_bucket_id : String
deriving DecidableEq, Repr

structure BookMeta where
  title : String
  author : String
  format : String
  category : Option String
  coverImageUrl : Option String
  downloadUrl : String
  bookUrl : String
deriving DecidableEq, Repr

structure IngestEnv where
  downloadPath : String
  mkdirOutcome : Except JsErr Unit
  launchOutcome : Except JsErr Unit
  gotoOutcome : Except JsErr Unit
  ready : ℕ → ℕ → Bool
  dlWait : ℕ → DlWaitOutcome
  dlTime : ℕ → ℕ
  fileExists : ℕ → Bool
  fileSize : ℕ → ℕ
  reloadOk : ℕ → Bool
  newPageOk : ℕ → Bool
  uploadOutcome : ℕ → Except JsErr String
  insertOutcome : ℕ → Except JsErr Unit
  uploadUuid : ℕ → String
  recordId : ℕ → String
  publicUrlOf : String → String

/-- `uploadToSupabaseStorage` (src/index.js 530-647). On insert failure
after a successful upload it issues a best-effort `storage.remove` of the
uploaded object and rethrows the insert error (lines 623-633). -/
def uploadToSupabaseStorage (env : IngestEnv) (attempt : ℕ) (db : DB)
    (fileName : String) (bookMetadata : BookMeta) :
    Except JsErr UploadOk × DB × List Ev :=
  let sanitizedFileName := sanitizeFilename fileName
  let _uniqueFileName := env.uploadUuid attempt ++ "_" ++ sanitizedFileName
  let _contentType := getContentType sanitizedFileName
  match env.uploadOutcome attempt with
  | .error uploadError => (.error uploadError, db, [])
  | .ok uploadPath =>
      let s3BucketUrl := env.publicUrlOf uploadPath
      let bookRecord : BookRow :=
        { id := env.recordId attempt,
          title := jsOrOpt (some bookMetadata.title) "Unknown Title",
          author := jsOrOpt (some bookMetadata.author) "Unknown Author",
          format := jsOrOpt (some bookMetadata.format) "pdf",
          category := bookMetadata.category,
          book_url := jsOrNull bookMetadata.bookUrl,
          cover_image_url := bookMetadata.coverImageUrl,
          download_url := jsOrNull bookMetadata.downloadUrl,
          s3_bucket_id := uploadPath,
          s3_bucket_url := s3BucketUrl }
      match env.insertOutcome attempt with
      | .error insertError =>
          (.error insertError, db, [.upload uploadPath, .removeObject uploadPath])
      | .ok _ =>
          (.ok ⟨bookRecord.id, s3BucketUrl, uploadPath⟩, db ++ [bookRecord],
           [.upload uploadPath, .insertRow bookRecord.id])

def maxRetries : ℕ := 3

def maxWaitTime : ℕ := 120000

inductive PollRes where
  | deadline
  | ready
deriving DecidableEq, Repr

/-- The inner button-readiness poll (src/index.js 2329-2382): give up with
the deadline error once more than `maxWaitTime` ms have elapsed since
`startTime`, otherwise poll and wait 2000 ms between polls. -/
def pollLoop (env : IngestEnv) (attempt startTime now iter : ℕ) : PollRes × ℕ :=
  if h1 : now - startTime > maxWaitTime then (.deadline, now)
  else if h2 : env.ready attempt iter then (.ready, now)
  else pollLoop env attempt startTime (now + 2000) (iter + 1)
termination_by startTime + maxWaitTime + 1 - now
decreasing_by omega

/-- The retryable-error test of the inner download catch
(src/index.js 2512-2514). -/
def dlInnerRetryable (e : JsErr) : Bool :=
  strIncludes e.message "timeout" || strIncludes e.message "Download backup timeout" ||
  strIncludes e.message "no download detected"

/-- The retryable-error test of the outer per-attempt catch
(src/index.js 2530-2534). -/
def dlOuterRetryable (e : JsErr) : Bool :=
  e.name == "TimeoutError" || strIncludes e.message "timeout" ||
  strIncludes e.message "Maximum wait time exceeded" ||
  strIncludes e.message "no download detected" ||
  strIncludes e.message "Download backup timeout"

inductive StepRes where
  | stepSuccess (res : UploadOk) (temp : String) (now : ℕ) (db : DB) (ev : List Ev)
  | retryBreak (now : ℕ) (db : DB) (ev : List Ev)
  | raiseErr (e : JsErr) (now : ℕ) (db : DB) (ev : List Ev)

/-- The inner download catch (src/index.js 2499-2518): after cleanup, a
timeout-style error breaks out to retry; everything else is rethrown. -/
def dlInnerCatch (e : JsErr) (now : ℕ) (db : DB) (ev : List Ev) : StepRes :=
  if dlInnerRetryable e then .retryBreak now db ev else .raiseErr e now db ev

/-- `download.suggestedFilename().replace(/[^a-zA-Z0-9.-]/g, '_')`
(src/index.js 2443). -/
def saveSanitize (s : String) : String :=
  String.mk (s.data.map (fun c => if c.isAlphanum || c = '.' || c = '-' then c else '_'))

/-- The per-attempt scratch path
`path.join(downloadPath, 'temp_' + Date.now() + '_' + sanitizedFilename)`
(src/index.js 2444), with the simulated clock standing in for `Date.now()`. -/
def tempName (env : IngestEnv) (now : ℕ) (fileName : String) : String :=
  env.downloadPath ++ "/temp_" ++ toString now ++ "_" ++ saveSanitize fileName

/-- `.replace(/\.[^/.]+$/, "")`: strip a trailing extension. -/
def stripExt (s : String) : String :=
  let r := s.data.reverse
  let tail := r.takeWhile (fun c => c ≠ '.' && c ≠ '/')
  match r.drop tail.length with
  | '.' :: rest => if tail.isEmpty then s else String.mk rest.reverse
  | _ => s

structure DlReq where
  url : Option String
  title : Option String
  author : Option String
  format : Option String
  category : Option String
  coverImageUrl : Option String

def jsOrNullOpt : Option String → Option String
  | none => none
  | some c => jsOrNull c

/-- The `bookMetadata` object built before upload (src/index.js 2461-2469). -/
def mkBookMeta (req : DlReq) (url fileName : String) : BookMeta :=
  { title := jsOrOpt req.title (stripExt fileName),
    author := jsOrOpt req.author "Unknown Author",
    format := jsOrOpt req.format "pdf",
    category := jsOrNullOpt req.category,
    coverImageUrl := jsOrNullOpt req.coverImageUrl,
    downloadUrl := url,
    bookUrl := url }

/-- One iteration of the download attempt (the body of the while loop,
src/index.js 2320-2524): poll for the button, then click and race the
download event, save the stream, stat-check the file, and upload+insert.
Every failure is routed through `dlInnerCatch` or raised to the outer
catch, exactly as the trycatch nesting does. -/
def attemptStep (env : IngestEnv) (req : DlReq) (url : String)
    (startTime now attempt : ℕ) (db : DB) : StepRes :=
  match pollLoop env attempt startTime now 0 with
  | (.deadline, now1) =>
      .raiseErr ⟨"Error", "Maximum wait time exceeded (2 minutes)"⟩ now1 db []
  | (.ready, now1) =>
    match env.dlWait attempt with
    | .fired fileName =>
        let tempFilePath := tempName env now1 fileName
        let now2 := now1 + env.dlTime attempt + 1000
        if env.fileExists attempt then
          if 0 < env.fileSize attempt then
            match uploadToSupabaseStorage env attempt db fileName (mkBookMeta req url fileName) with
            | (.ok supabaseResult, db1, evU) =>
                .stepSuccess supabaseResult tempFilePath now2 db1
                  ([.saveFile tempFilePath, .verified (env.fileSize attempt)] ++ evU)
            | (.error e, db1, evU) =>
                dlInnerCatch e now2 db1
                  ([.saveFile tempFilePath] ++ evU ++ [.deleteFile tempFilePath])
          else
            dlInnerCatch ⟨"Error", "Downloaded file is empty"⟩ now2 db
              [.saveFile tempFilePath, .deleteFile tempFilePath]
        else
          dlInnerCatch ⟨"Error", "Download file was not created"⟩ now2 db
            [.saveFile tempFilePath]
    | w => dlInnerCatch (dlWaitErr w) (now1 + env.dlTime attempt) db []

inductive LoopRes where
  | loopSuccess (res : UploadOk) (temp : String) (now : ℕ) (db : DB) (ev : List Ev)
  | thrown (e : JsErr) (now : ℕ) (db : DB) (ev : List Ev)

/-- The bounded retry loop (src/index.js 2320-2568): `retryCount` is
incremented at the top of each iteration; a `retryBreak` re-enters the loop
directly, a raised retryable error goes through the reload logic, and
exhausting `maxRetries` produces the terminal failure messages of lines
2538 and 2567. `startTime` is passed through unchanged: the deadline is
never reset between attempts. -/
def dlLoop (env : IngestEnv) (req : DlReq) (url : String) (startTime : ℕ)
    (retryCount now : ℕ) (db : DB) (ev : List Ev) : LoopRes :=
  if h : retryCount < maxRetries then
    let ev0 := ev ++ [.attemptStart (retryCount + 1)]
    match attemptStep env req url startTime now (retryCount + 1) db with
    | .stepSuccess res temp now1 db1 evA => .loopSuccess res temp now1 db1 (ev0 ++ evA)
    | .retryBreak now1 db1 evA =>
        dlLoop env req url startTime (retryCount + 1) now1 db1 (ev0 ++ evA)
    | .raiseErr e now1 db1 evA =>
        if dlOuterRetryable e then
          if retryCount + 1 ≥ maxRetries then
            .thrown ⟨"Error", "Download failed after " ++ toString maxRetries ++
                       " attempts: " ++ e.message⟩ now1 db1 (ev0 ++ evA)
          else if env.reloadOk (retryCount + 1) then
            dlLoop env req url startTime (retryCount + 1) (now1 + 3000) db1 (ev0 ++ evA)
          else if env.newPageOk (retryCount + 1) then
            dlLoop env req url startTime (retryCount + 1) now1 db1 (ev0 ++ evA)
          else .thrown e now1 db1 (ev0 ++ evA)
        else .thrown e now1 db1 (ev0 ++ evA)
  else .thrown ⟨"Error", "Download failed after all attempts"⟩ now db ev
termination_by maxRetries - retryCount
decreasing_by all_goals omega

inductive DlResp where
  | badRequest (error message : String)
  | dedupHit (message id s3_bucket_url : String)
  | created (message id s3_bucket_url : String)
  | failure (error message : String)
deriving DecidableEq, Repr

/-- `!url || !url.startsWith('http')` (src/index.js 2150). -/
def urlInvalid : Option String → Bool
  | none => true
  | some u => u == "" || !(strStartsWith u "http")

/-- The `POST /books/download` handler (src/index.js 2142-2601): input
guard, dedup check, then browser launch + retry loop, with the `finally`
cleanup of the scratch file and the browser on every path that launched. -/
def booksDownload (env : IngestEnv) (db : DB) (req : DlReq) : DlResp × DB × List Ev :=
  if urlInvalid req.url then
    (.badRequest "Invalid URL" "The download URL must be a valid HTTP/HTTPS URL", db, [])
  else
    let url := req.url.getD ""
    match checkBookExists db url with
    | .error e => (.failure "Fatal error" e, db, [.dedupCheck])
    | .ok (some existingBook) =>
        (.dedupHit "Book already exists in database" existingBook.id
           existingBook.s3_bucket_url, db, [.dedupCheck])
    | .ok none =>
      match env.mkdirOutcome with
      | .error e => (.failure "Download failed" e.message, db, [.dedupCheck])
      | .ok _ =>
        match env.launchOutcome with
        | .error e => (.failure "Download failed" e.message, db, [.dedupCheck])
        | .ok _ =>
          match env.gotoOutcome with
          | .error e =>
              (.failure "Download failed" e.message, db, [.dedupCheck, .launch, .closeBrowser])
          | .ok _ =>
            match dlLoop env req url 0 0 0 db [] with
            | .loopSuccess res temp _ db1 ev =>
                (.created "Book downloaded and uploaded successfully" res.id res.s3_bucket_url,
                 db1, [.dedupCheck, .launch] ++ ev ++ [.deleteFile temp, .closeBrowser])
            | .thrown e _ db1 ev =>
                (.failure "Download failed" e.message, db1,
                 [.dedupCheck, .launch] ++ ev ++ [.closeBrowser])

/-! ## Arithmetic bridges

`jsCeil`/`ratTrunc` are written with the kernel-computable `Rat.floor` and
`Rat.ceil`; these lemmas identify them with the mathematical `⌊⌋`/`⌈⌉`. -/

theorem ratFloor_eq_floor (q : ℚ) : q.floor = ⌊q⌋ :=
  (Rat.floor_def' q).trans Rat.floor_def.symm

theorem ratCeil_eq_ceil (q : ℚ) : q.ceil = ⌈q⌉ := by
  by_cases hden : q.den = 1
  · have hq : ((q.num : ℚ)) = q := (Rat.den_eq_one_iff q).mp hden
    have h1 : q.ceil = q.num := by unfold Rat.ceil; simp [hden]
    rw [h1, ← hq, Int.ceil_intCast, Rat.num_intCast]
  · have hfl : q.ceil = q.floor + 1 := by
      unfold Rat.ceil; unfold Rat.floor; simp [hden]
    have hnotint : ((⌊q⌋ : ℚ)) ≠ q := by
      intro hcontra
      exact hden (by rw [← hcontra]; exact Rat.den_intCast ⌊q⌋)
    have hlt : ((⌊q⌋ : ℚ)) < q := lt_of_le_of_ne (Int.floor_le q) hnotint
    rw [hfl, ratFloor_eq_floor]
    refine (Int.ceil_eq_iff.mpr ⟨?_, ?_⟩).symm
    · push_cast
      simpa using hlt
    · have := Int.lt_floor_add_one q
      push_cast
      linarith

theorem ratDivC_eq_div (a b : ℚ) (hb : b ≠ 0) : ratDivC a b = a / b := by
  unfold ratDivC
  rw [Rat.divInt_eq_div]
  have hbn : (b.num : ℚ) ≠ 0 := by
    exact_mod_cast Rat.num_ne_zero.mpr hb
  have had : ((a.den : ℚ)) ≠ 0 := by
    exact_mod_cast a.den_ne_zero
  have hbd : ((b.den : ℚ)) ≠ 0 := by
    exact_mod_cast b.den_ne_zero
  have ha2 : ((a.num : ℚ)) = a * a.den := (div_eq_iff had).mp (Rat.num_div_den a)
  have hb2 : ((b.num : ℚ)) = b * b.den := (div_eq_iff hbd).mp (Rat.num_div_den b)
  have hy : (((a.den : ℤ) * b.num : ℤ) : ℚ) ≠ 0 := by
    push_cast
    exact mul_ne_zero had hbn
  rw [div_eq_div_iff hy hb]
  push_cast
  rw [ha2, hb2]
  ring

theorem ratSubC_eq (a b : ℚ) : ratSubC a b = a - b := by
  unfold ratSubC
  rw [Rat.divInt_eq_div]
  have had : ((a.den : ℚ)) ≠ 0 := by exact_mod_cast a.den_ne_zero
  have hbd : ((b.den : ℚ)) ≠ 0 := by exact_mod_cast b.den_ne_zero
  have ha2 : ((a.num : ℚ)) = a * a.den := (div_eq_iff had).mp (Rat.num_div_den a)
  have hb2 : ((b.num : ℚ)) = b * b.den := (div_eq_iff hbd).mp (Rat.num_div_den b)
  push_cast
  field_simp
  rw [ha2, hb2]
  ring

theorem ratAddC_eq (a b : ℚ) : ratAddC a b = a + b := by
  unfold ratAddC
  rw [Rat.divInt_eq_div]
  have had : ((a.den : ℚ)) ≠ 0 := by exact_mod_cast a.den_ne_zero
  have hbd : ((b.den : ℚ)) ≠ 0 := by exact_mod_cast b.den_ne_zero
  have ha2 : ((a.num : ℚ)) = a * a.den := (div_eq_iff had).mp (Rat.num_div_den a)
  have hb2 : ((b.num : ℚ)) = b * b.den := (div_eq_iff hbd).mp (Rat.num_div_den b)
  push_cast
  field_simp
  rw [ha2, hb2]
  ring

theorem ratMulC_eq (a b : ℚ) : ratMulC a b = a * b := by
  unfold ratMulC
  rw [Rat.divInt_eq_div]
  have had : ((a.den : ℚ)) ≠ 0 := by exact_mod_cast a.den_ne_zero
  have hbd : ((b.den : ℚ)) ≠ 0 := by exact_mod_cast b.den_ne_zero
  have ha2 : ((a.num : ℚ)) = a * a.den := (div_eq_iff had).mp (Rat.num_div_den a)
  have hb2 : ((b.num : ℚ)) = b * b.den := (div_eq_iff hbd).mp (Rat.num_div_den b)
  push_cast
  field_simp
  rw [ha2, hb2]
  ring

theorem ratTrunc_natCast (n : ℕ) : ratTrunc ((n : ℚ)) = (n : ℤ) := by
  unfold ratTrunc
  rw [if_pos (by positivity), ratFloor_eq_floor, Int.floor_natCast]

theorem jsToIndex_natCast (n len : ℕ) : jsToIndex (.rat (n : ℚ)) len = min n len := by
  simp only [jsToIndex, ratTrunc_natCast]
  have h : ¬ ((n : ℤ) < 0) := by omega
  simp [h]

theorem list_take_min {α : Type} (xs : List α) (n : ℕ) :
    xs.take (min n xs.length) = xs.take n := by
  rcases le_total n xs.length with h | h
  · rw [min_eq_left h]
  · rw [min_eq_right h, List.take_length, List.take_of_length_le h]

theorem list_drop_min {α : Type} (xs : List α) (n : ℕ) :
    xs.drop (min n xs.length) = xs.drop n := by
  rcases le_total n xs.length with h | h
  · rw [min_eq_left h]
  · rw [min_eq_right h, List.drop_length, List.drop_eq_nil_of_le h]

theorem jsSlice_natCast {α : Type} (xs : List α) (a l : ℕ) :
    jsSlice xs (.rat (a : ℚ)) (.rat ((a + l : ℕ) : ℚ)) = (xs.drop a).take l := by
  unfold jsSlice
  rw [jsToIndex_natCast, jsToIndex_natCast, list_take_min]
  rcases le_total a xs.length with h | h
  · rw [min_eq_left h, List.drop_take]
    congr 1
    omega
  · rw [min_eq_right h]
    have h1 : (xs.take (a + l)).length = xs.length := by
      rw [List.length_take]
      omega
    rw [← h1, List.drop_length, List.drop_eq_nil_of_le h, List.take_nil]

/-! ## C9: the ingest input guard -/

/-- C9. A `POST /books/download` whose body `url` is absent, empty, or does
not start with `"http"` is rejected with the 400 `Invalid URL` response;
the database is untouched and no dedup check, browser work or persistence
happens (the event trace is empty). -/
theorem download_invalid_url_rejected (env : IngestEnv) (db : DB) (req : DlReq)
    (h : urlInvalid req.url = true) :
    booksDownload env db req =
      (.badRequest "Invalid URL" "The download URL must be a valid HTTP/HTTPS URL", db, []) := by
  unfold booksDownload
  rw [if_pos h]

def envW : IngestEnv :=
  { downloadPath := "/tmp/downloads",
    mkdirOutcome := .ok (), launchOutcome := .ok (), gotoOutcome := .ok (),
    ready := fun _ _ => true,
    dlWait := fun _ => .fired "book.pdf",
    dlTime := fun _ => 5000,
    fileExists := fun _ => true,
    fileSize := fun _ => 1024,
    reloadOk := fun _ => true, newPageOk := fun _ => true,
    uploadOutcome := fun _ => .ok "uuid1_book.pdf",
    insertOutcome := fun _ => .ok (),
    uploadUuid := fun _ => "uuid1",
    recordId := fun n => "id-" ++ toString n,
    publicUrlOf := fun p => "https://supabase.example/storage/books/" ++ p }

/-- Witness for C9 at the concrete body `url = "ftp://files.example/b.pdf"`. -/
theorem download_invalid_url_rejected_witness :
    urlInvalid (some "ftp://files.example/b.pdf") = true ∧
    booksDownload envW []
        { url := some "ftp://files.example/b.pdf", title := none, author := none,
          format := none, category := none, coverImageUrl := none } =
      (.badRequest "Invalid URL" "The download URL must be a valid HTTP/HTTPS URL", [], []) :=
  ⟨by decide,
   download_invalid_url_rejected envW []
     { url := some "ftp://files.example/b.pdf", title := none, author := none,
       format := none, category := none, coverImageUrl := none } (by decide)⟩

/-! ## C3: unresolved listings are excluded from search results -/

theorem ehResolveLoop_downloadUrl_ne_empty (resolve : ℕ → Except Unit ResolveResult)
    (newId : ℕ → String) :
    ∀ (l : List ListingMeta) (i : ℕ) (b : Book),
      b ∈ ehResolveLoop resolve newId l i → b.downloadUrl ≠ "" := by
  intro l
  induction l with
  | nil => intro i b hb; simp [ehResolveLoop] at hb
  | cons m rest ih =>
    intro i b hb
    cases hres : resolve i with
    | error e =>
      simp only [ehResolveLoop, hres] at hb
      exact ih (i + 1) b hb
    | ok r =>
      simp only [ehResolveLoop, hres] at hb
      split at hb
      next hd =>
        rcases List.mem_cons.mp hb with hcase | hcase
        · subst hcase
          exact hd
        · exact ih (i + 1) b hcase
      next hd => exact ih (i + 1) b hb

theorem aaResolveLoop_downloadUrl_ne_empty (resolve : ℕ → Except Unit ResolveResult)
    (newId : ℕ → String) :
    ∀ (l : List ListingMeta) (i : ℕ) (b : Book),
      b ∈ aaResolveLoop resolve newId l i → b.downloadUrl ≠ "" := by
  intro l
  induction l with
  | nil => intro i b hb; simp [aaResolveLoop] at hb
  | cons m rest ih =>
    intro i b hb
    cases hres : resolve i with
    | error e =>
      simp only [aaResolveLoop, hres] at hb
      exact ih (i + 1) b hb
    | ok r =>
      simp only [aaResolveLoop, hres] at hb
      split at hb
      next hd =>
        rcases List.mem_cons.mp hb with hcase | hcase
        · subst hcase
          exact hd
        · exact ih (i + 1) b hcase
      next hd => exact ih (i + 1) b hb

/-- C3. For both sources, every book in the returned set has a non-empty
`downloadUrl`; listings whose detail resolution yields an empty download
URL are dropped, and an empty resolution never turns the search into an
error (`searchEbookHunter` still returns `.ok` whenever navigation
succeeded, whatever the per-listing resolutions did). -/
theorem search_results_have_download_url (env : SearchEnv) :
    (∀ books, searchEbookHunter env = .ok books → ∀ b ∈ books, b.downloadUrl ≠ "") ∧
    (∀ b ∈ searchAnnasArchive env, b.downloadUrl ≠ "") ∧
    (env.navOutcome = .ok () → ∃ books, searchEbookHunter env = .ok books) := by
  refine ⟨?_, ?_, ?_⟩
  · intro books hok b hb
    unfold searchEbookHunter at hok
    cases hnav : env.navOutcome with
    | error e => rw [hnav] at hok; exact absurd hok (by simp)
    | ok u =>
      rw [hnav] at hok
      have : books = ehResolveLoop env.resolve env.newId (env.listings.take 20) 0 := by
        cases hok; rfl
      rw [this] at hb
      exact ehResolveLoop_downloadUrl_ne_empty env.resolve env.newId _ 0 b hb
  · intro b hb
    unfold searchAnnasArchive at hb
    cases hnav : env.navOutcome with
    | error e => rw [hnav] at hb; simp at hb
    | ok u =>
      rw [hnav] at hb
      exact aaResolveLoop_downloadUrl_ne_empty env.resolve env.newId _ 0 b hb
  · intro hnav
    unfold searchEbookHunter
    rw [hnav]
    exact ⟨_, rfl⟩

def listingW : ListingMeta :=
  { title := "Crafting Interpreters", author := "Robert Nystrom", format := "pdf",
    date := "2021-07-27", category := "Programming",
    bookUrl := "https://ebook-hunter.org/crafting-interpreters/",
    coverImageUrl := "", source := "ebook-hunter" }

def listingW2 : ListingMeta :=
  { title := "No Download", author := "Unknown", format := "pdf",
    date := "", category := "",
    bookUrl := "https://ebook-hunter.org/no-download/",
    coverImageUrl := "", source := "ebook-hunter" }

def searchEnvW : SearchEnv :=
  { launchOutcome := .ok (), navOutcome := .ok (),
    listings := [listingW, listingW2],
    resolve := fun i =>
      if i = 0 then .ok ⟨"https://dl.ebook-hunter.org/crafting.pdf", ""⟩ else .ok ⟨"", ""⟩,
    newId := fun n => "uuid-" ++ toString n }

/-- Witness for C3 at a concrete environment where the second listing
resolves to an empty download URL and is dropped. -/
theorem search_results_have_download_url_witness :
    ∀ b ∈ ehResolveLoop searchEnvW.resolve searchEnvW.newId (searchEnvW.listings.take 20) 0,
      b.downloadUrl ≠ "" :=
  (search_results_have_download_url searchEnvW).1
    (ehResolveLoop searchEnvW.resolve searchEnvW.newId (searchEnvW.listings.take 20) 0) rfl

/-! ## C2: pagination arithmetic of the search endpoint -/

/-- C2. For a successful search response with a valid query, a known
source, and `page`/`limit` parsing to naturals `p ≥ 1`, `l ≥ 1`: `total`
is the length of the full extracted-and-resolved set (the value
`scrapedBooks` produced before pagination), `totalPages = ⌈total / l⌉`,
and `books` is the slice of the full set from `(p-1)*l` of length `l`, in
extraction order. -/
theorem search_pagination_correct (env : SearchEnv) (req : SearchReq)
    (q : String) (p l : ℕ)
    (hq : req.query = some q) (hqne : q ≠ "")
    (hp : jsParseInt (jsOrOpt req.page "1") = .rat ((p : ℚ)))
    (hl : jsParseInt (jsOrOpt req.limit "10") = .rat ((l : ℚ)))
    (hp1 : 1 ≤ p) (hl1 : 1 ≤ l) :
    ∀ books total pg tp src ev full,
      booksSearch env req = (.ok books total pg tp src, ev) →
      scrapedBooks env src = .ok full →
      total = full.length ∧
      tp = .rat ((⌈(total : ℚ) / (l : ℚ)⌉ : ℤ) : ℚ) ∧
      books = (full.drop ((p - 1) * l)).take l := by
  intro books total pg tp src ev full hrun hfull
  have hq' : jsOrOpt req.query "" = q := by rw [hq]; simp [jsOrOpt, hqne]
  simp only [booksSearch, hq', hp, hl] at hrun
  rw [if_neg hqne] at hrun
  by_cases hsrc : isBookSource (jsOrOpt req.source DEFAULT_SOURCE) = true
  · rw [if_neg (by simp [hsrc])] at hrun
    cases hlaunch : env.launchOutcome with
    | error e =>
      rw [hlaunch] at hrun
      exact absurd (congrArg Prod.fst hrun) (by simp)
    | ok u =>
      rw [hlaunch] at hrun
      cases hscrape : scrapedBooks env (jsOrOpt req.source DEFAULT_SOURCE) with
      | error e =>
        rw [hscrape] at hrun
        exact absurd (congrArg Prod.fst hrun) (by simp)
      | ok allBooks =>
        rw [hscrape] at hrun
        have h1 := congrArg Prod.fst hrun
        simp only [SearchResp.ok.injEq] at h1
        obtain ⟨hbooks, htotal, hpg, htp, hsrceq⟩ := h1
        have hfull' : full = allBooks := by
          rw [hsrceq] at hscrape
          rw [hscrape] at hfull
          exact ((Except.ok.injEq _ _).mp hfull).symm
        subst hfull'
        refine ⟨htotal.symm, ?_, ?_⟩
        · rw [← htp, ← htotal]
          have hlq : ((l : ℚ)) ≠ 0 := by
            have : (0 : ℕ) < l := hl1
            exact_mod_cast this.ne'
          simp only [jsDiv]
          rw [if_neg hlq]
          simp only [jsCeil]
          rw [ratDivC_eq_div _ _ hlq, ratCeil_eq_ceil]
        · rw [← hbooks]
          have hsub : jsSub (.rat ((p : ℚ))) (.rat 1) = .rat (((p - 1 : ℕ) : ℚ)) := by
            simp only [jsSub, ratSubC_eq, JVal.rat.injEq]
            rw [Nat.cast_sub hp1]
            norm_num
          rw [hsub]
          have hmul : jsMul (.rat (((p - 1 : ℕ) : ℚ))) (.rat ((l : ℚ))) =
              .rat ((((p - 1) * l : ℕ) : ℚ)) := by
            simp only [jsMul, ratMulC_eq, JVal.rat.injEq]
            push_cast
            ring
          rw [hmul]
          have hadd : jsAdd (.rat ((((p - 1) * l : ℕ) : ℚ))) (.rat ((l : ℚ))) =
              .rat ((((p - 1) * l + l : ℕ) : ℚ)) := by
            simp only [jsAdd, ratAddC_eq, JVal.rat.injEq]
            push_cast
            ring
          rw [hadd, jsSlice_natCast]
  · rw [if_pos (by simpa using hsrc)] at hrun
    exact absurd (congrArg Prod.fst hrun) (by simp)

def reqC2 : SearchReq :=
  { query := some "crafting", page := some "1", limit := some "10",
    source := some "ebook-hunter" }

def bookW : Book :=
  { id := "uuid-0", title := "Crafting Interpreters", author := "Robert Nystrom",
    format := "pdf", date := "2021-07-27", category := "Programming",
    bookUrl := "https://ebook-hunter.org/crafting-interpreters/",
    coverImageUrl := "https://img.ebook-hunter.org/img/crafting-interpreters_small.jpg",
    source := "ebook-hunter",
    downloadUrl := "https://dl.ebook-hunter.org/crafting.pdf" }

/-- Witness for C2: a concrete search (page 1, limit 10) over an
environment that resolves one of two listings. -/
theorem search_pagination_correct_witness :
    (1 : ℕ) = [bookW].length ∧
    JVal.rat 1 = .rat ((⌈((1 : ℕ) : ℚ) / ((10 : ℕ) : ℚ)⌉ : ℤ) : ℚ) ∧
    [bookW] = (([bookW].drop ((1 - 1) * 10)).take 10) :=
  search_pagination_correct searchEnvW reqC2 "crafting" 1 10 rfl (by decide)
    (by decide) (by decide) (by decide) (by decide)
    [bookW] 1 (.rat 1) (.rat 1) "ebook-hunter" [.launch, .closeBrowser] [bookW]
    rfl rfl

/-! ## C10: the search endpoint does not validate `page`/`limit` -/

/-- C10. The search endpoint performs no validation of `page` or `limit`:
with `limit=0` and a non-empty result set the response still succeeds and
its `totalPages` is `Infinity` (`Math.ceil(total/0)`), not a finite
number; and no value of `page`/`limit` (numeric or not) can produce the
400 `invalidParams` rejection, which depends only on `query` and
`source`. -/
theorem search_limit_unvalidated (env : SearchEnv) (req : SearchReq) (q : String)
    (hq : req.query = some q) (hqne : q ≠ "")
    (hsrc : isBookSource (jsOrOpt req.source DEFAULT_SOURCE) = true) :
    (req.limit = some "0" →
      ∀ books total pg tp src ev,
        booksSearch env req = (.ok books total pg tp src, ev) →
        0 < total → tp = .inf ∧ tp.isFinite = false) ∧
    (∀ e m, (booksSearch env req).1 ≠ .invalidParams e m) := by
  constructor
  · intro hlim books total pg tp src ev hrun htot
    have hq' : jsOrOpt req.query "" = q := by rw [hq]; simp [jsOrOpt, hqne]
    have hl0 : jsParseInt (jsOrOpt req.limit "10") = .rat 0 := by
      rw [hlim]; decide
    simp only [booksSearch, hq', hl0] at hrun
    rw [if_neg hqne, if_neg (by simp [hsrc])] at hrun
    cases hlaunch : env.launchOutcome with
    | error e =>
      rw [hlaunch] at hrun
      exact absurd (congrArg Prod.fst hrun) (by simp)
    | ok u =>
      rw [hlaunch] at hrun
      cases hscrape : scrapedBooks env (jsOrOpt req.source DEFAULT_SOURCE) with
      | error e =>
        rw [hscrape] at hrun
        exact absurd (congrArg Prod.fst hrun) (by simp)
      | ok allBooks =>
        rw [hscrape] at hrun
        have h1 := congrArg Prod.fst hrun
        simp only [SearchResp.ok.injEq] at h1
        obtain ⟨hbooks, htotal, hpg, htp, hsrceq⟩ := h1
        have hlen : (0 : ℚ) < ((allBooks.length : ℚ)) := by
          have : 0 < allBooks.length := htotal ▸ htot
          exact_mod_cast this
        have hdiv : jsDiv (.rat ((allBooks.length : ℚ))) (.rat 0) = .inf := by
          simp only [jsDiv]
          simp [hlen]
        rw [← htp, hdiv]
        exact ⟨rfl, rfl⟩
  · intro e m hcontra
    have hq' : jsOrOpt req.query "" = q := by rw [hq]; simp [jsOrOpt, hqne]
    simp only [booksSearch, hq'] at hcontra
    rw [if_neg hqne, if_neg (by simp [hsrc])] at hcontra
    cases hlaunch : env.launchOutcome with
    | error _ =>
      rw [hlaunch] at hcontra
      exact absurd hcontra (by simp)
    | ok u =>
      rw [hlaunch] at hcontra
      cases hscrape : scrapedBooks env (jsOrOpt req.source DEFAULT_SOURCE) with
      | error _ =>
        rw [hscrape] at hcontra
        exact absurd hcontra (by simp)
      | ok allBooks =>
        rw [hscrape] at hcontra
        exact absurd hcontra (by simp)

/-- Witness for C10: `limit=0` with one resolved book yields a 200 response
whose `totalPages` is `Infinity`. -/
theorem search_limit_unvalidated_witness :
    JVal.inf = JVal.inf ∧ JVal.inf.isFinite = false :=
  (search_limit_unvalidated searchEnvW
      { query := some "crafting", page := some "1", limit := some "0",
        source := some "ebook-hunter" }
      "crafting" rfl (by decide) (by decide)).1 rfl
    [] 1 (.rat 1) .inf "ebook-hunter" [.launch, .closeBrowser]
    rfl (by decide)

/-! ## Event accounting for the download flow -/

def isAttemptStart : Ev → Bool
  | .attemptStart _ => true
  | _ => false

def isBrowserEv : Ev → Bool
  | .launch => true
  | .closeBrowser => true
  | _ => false

def countEv (e0 : Ev) (ev : List Ev) : ℕ :=
  (ev.filter (fun e => e == e0)).length

def countAttempts (ev : List Ev) : ℕ :=
  (ev.filter isAttemptStart).length

def evOfStep : StepRes → List Ev
  | .stepSuccess _ _ _ _ ev => ev
  | .retryBreak _ _ ev => ev
  | .raiseErr _ _ _ ev => ev

def dbOfStep : StepRes → DB
  | .stepSuccess _ _ _ db _ => db
  | .retryBreak _ db _ => db
  | .raiseErr _ _ db _ => db

def evOfLoop : LoopRes → List Ev
  | .loopSuccess _ _ _ _ ev => ev
  | .thrown _ _ _ ev => ev

/-- Events emitted inside `uploadToSupabaseStorage` are upload/insert/remove
events only. -/
theorem uploadToSupabaseStorage_events (env : IngestEnv) (attempt : ℕ) (db : DB)
    (fn : String) (meta : BookMeta) :
    ∀ x ∈ (uploadToSupabaseStorage env attempt db fn meta).2.2,
      isBrowserEv x = false ∧ isAttemptStart x = false := by
  unfold uploadToSupabaseStorage
  cases huo : env.uploadOutcome attempt with
  | error e0 =>
    intro x hx
    simp at hx
  | ok path =>
    cases hio : env.insertOutcome attempt with
    | error e0 =>
      intro x hx
      dsimp only at hx
      simp only [List.mem_cons, List.not_mem_nil, or_false] at hx
      rcases hx with rfl | rfl <;> exact ⟨rfl, rfl⟩
    | ok u0 =>
      intro x hx
      dsimp only at hx
      simp only [List.mem_cons, List.not_mem_nil, or_false] at hx
      rcases hx with rfl | rfl <;> exact ⟨rfl, rfl⟩

/-- Every event an attempt can emit is internal to the loop: never a
browser launch/close, never an `attemptStart` (those are emitted by the
loop itself). -/
theorem attemptStep_events_internal (env : IngestEnv) (req : DlReq) (url : String)
    (startTime now attempt : ℕ) (db : DB) :
    ∀ e ∈ evOfStep (attemptStep env req url startTime now attempt db),
      isBrowserEv e = false ∧ isAttemptStart e = false := by
  intro e he
  unfold attemptStep at he
  rcases hpoll : pollLoop env attempt startTime now 0 with ⟨pr, now1⟩
  rw [hpoll] at he
  dsimp only at he
  cases pr with
  | deadline => simp [evOfStep] at he
  | ready =>
    cases hdw : env.dlWait attempt with
    | fired fileName =>
      rw [hdw] at he
      dsimp only at he
      by_cases hex : env.fileExists attempt = true
      · rw [if_pos hex] at he
        by_cases hsz : 0 < env.fileSize attempt
        · rw [if_pos hsz] at he
          rcases hup : uploadToSupabaseStorage env attempt db fileName
              (mkBookMeta req url fileName) with ⟨upres, db1, evU⟩
          rw [hup] at he
          have hupev : ∀ x ∈ evU, isBrowserEv x = false ∧ isAttemptStart x = false := by
            intro x hx
            have hev2 : evU = (uploadToSupabaseStorage env attempt db fileName
                (mkBookMeta req url fileName)).2.2 := by rw [hup]
            exact uploadToSupabaseStorage_events env attempt db fileName
              (mkBookMeta req url fileName) x (hev2 ▸ hx)
          cases upres with
          | ok r =>
            dsimp only at he
            simp only [evOfStep, List.mem_append, List.mem_cons, List.not_mem_nil,
              or_false] at he
            rcases he with (rfl | rfl) | h1
            · exact ⟨rfl, rfl⟩
            · exact ⟨rfl, rfl⟩
            · exact hupev e h1
          | error e0 =>
            dsimp only at he
            unfold dlInnerCatch at he
            split at he
            all_goals
              simp only [evOfStep, List.mem_append, List.mem_cons, List.not_mem_nil,
                or_false] at he
            all_goals
              rcases he with (rfl | h1) | rfl
              · exact ⟨rfl, rfl⟩
              · exact hupev e h1
              · exact ⟨rfl, rfl⟩
        · rw [if_neg hsz] at he
          unfold dlInnerCatch at he
          split at he
          all_goals
            simp only [evOfStep, List.mem_cons, List.not_mem_nil, or_false] at he
          all_goals
            rcases he with rfl | rfl
            · exact ⟨rfl, rfl⟩
            · exact ⟨rfl, rfl⟩
      · rw [if_neg hex] at he
        unfold dlInnerCatch at he
        split at he
        all_goals
          simp only [evOfStep, List.mem_cons, List.not_mem_nil, or_false] at he
        all_goals
          subst he
          exact ⟨rfl, rfl⟩
    | timeoutPlaywright =>
      rw [hdw] at he
      dsimp only at he
      unfold dlInnerCatch at he
      split at he <;> simp [evOfStep] at he
    | timeoutRace =>
      rw [hdw] at he
      dsimp only at he
      unfold dlInnerCatch at he
      split at he <;> simp [evOfStep] at he
    | timeoutBackup =>
      rw [hdw] at he
      dsimp only at he
      unfold dlInnerCatch at he
      split at he <;> simp [evOfStep] at he

/-- Full characterization of `uploadToSupabaseStorage`: upload failure
leaves everything unchanged; insert failure after upload keeps the database
unchanged but issues the compensating `removeObject`; success appends
exactly one row whose dedup key is the request's download URL. -/
theorem uploadToSupabaseStorage_spec (env : IngestEnv) (attempt : ℕ) (db : DB)
    (fn : String) (meta : BookMeta) :
    (∃ e, env.uploadOutcome attempt = .error e ∧
       uploadToSupabaseStorage env attempt db fn meta = (.error e, db, [])) ∨
    (∃ path e, env.uploadOutcome attempt = .ok path ∧
       env.insertOutcome attempt = .error e ∧
       uploadToSupabaseStorage env attempt db fn meta =
         (.error e, db, [.upload path, .removeObject path])) ∨
    (∃ path row, env.uploadOutcome attempt = .ok path ∧
       env.insertOutcome attempt = .ok () ∧
       uploadToSupabaseStorage env attempt db fn meta =
         (.ok ⟨env.recordId attempt, env.publicUrlOf path, path⟩, db ++ [row],
          [.upload path, .insertRow (env.recordId attempt)]) ∧
       row.id = env.recordId attempt ∧
       row.s3_bucket_url = env.publicUrlOf path ∧
       row.download_url = jsOrNull meta.downloadUrl) := by
  unfold uploadToSupabaseStorage
  cases huo : env.uploadOutcome attempt with
  | error e0 =>
    exact Or.inl ⟨e0, rfl, rfl⟩
  | ok path =>
    cases hio : env.insertOutcome attempt with
    | error e0 =>
      exact Or.inr (Or.inl ⟨path, e0, rfl, rfl, rfl⟩)
    | ok u0 =>
      cases u0
      exact Or.inr (Or.inr ⟨path, _, rfl, rfl, rfl, rfl, rfl, rfl⟩)

/-- A successful attempt implies: the saved file existed with positive
size, the upload and the insert succeeded, and the database grew by exactly
the one row whose `download_url` is the requested URL. -/
theorem attemptStep_success_spec (env : IngestEnv) (req : DlReq) (url : String)
    (startTime now attempt : ℕ) (db : DB) (res : UploadOk) (temp : String)
    (now1 : ℕ) (db1 : DB) (evA : List Ev)
    (h : attemptStep env req url startTime now attempt db =
      .stepSuccess res temp now1 db1 evA) :
    env.fileExists attempt = true ∧ 0 < env.fileSize attempt ∧
    (∃ path, env.uploadOutcome attempt = .ok path ∧
       res = ⟨env.recordId attempt, env.publicUrlOf path, path⟩) ∧
    env.insertOutcome attempt = .ok () ∧
    (∃ row : BookRow, db1 = db ++ [row] ∧ row.id = res.id ∧
       row.s3_bucket_url = res.s3_bucket_url ∧ row.download_url = jsOrNull url) ∧
    Ev.verified (env.fileSize attempt) ∈ evA := by
  unfold attemptStep at h
  rcases hpoll : pollLoop env attempt startTime now 0 with ⟨pr, now0⟩
  rw [hpoll] at h
  dsimp only at h
  cases pr with
  | deadline => exact absurd h (by simp)
  | ready =>
    cases hdw : env.dlWait attempt with
    | fired fileName =>
      rw [hdw] at h
      dsimp only at h
      by_cases hex : env.fileExists attempt = true
      · rw [if_pos hex] at h
        by_cases hsz : 0 < env.fileSize attempt
        · rw [if_pos hsz] at h
          rcases uploadToSupabaseStorage_spec env attempt db fileName
              (mkBookMeta req url fileName) with
            ⟨e0, huo, hup⟩ | ⟨path, e0, huo, hio, hup⟩ | ⟨path, row, huo, hio, hup, hrow⟩
          · rw [hup] at h
            dsimp only at h
            unfold dlInnerCatch at h
            split at h <;> exact absurd h (by simp)
          · rw [hup] at h
            dsimp only at h
            unfold dlInnerCatch at h
            split at h <;> exact absurd h (by simp)
          · rw [hup] at h
            dsimp only at h
            have hinj := StepRes.stepSuccess.inj h
            obtain ⟨hres, htemp, hnow, hdb, hev⟩ := hinj
            refine ⟨hex, hsz, ⟨path, huo, hres.symm⟩, hio, ⟨row, ?_, ?_, ?_, ?_⟩, ?_⟩
            · rw [← hdb]
            · rw [← hres]; exact hrow.1
            · rw [← hres]; exact hrow.2.1
            · have := hrow.2.2
              simpa [mkBookMeta] using this
            · rw [← hev]; simp
        · rw [if_neg hsz] at h
          unfold dlInnerCatch at h
          split at h <;> exact absurd h (by simp)
      · rw [if_neg hex] at h
        unfold dlInnerCatch at h
        split at h <;> exact absurd h (by simp)
    | timeoutPlaywright =>
      rw [hdw] at h
      dsimp only at h
      unfold dlInnerCatch at h
      split at h <;> exact absurd h (by simp)
    | timeoutRace =>
      rw [hdw] at h
      dsimp only at h
      unfold dlInnerCatch at h
      split at h <;> exact absurd h (by simp)
    | timeoutBackup =>
      rw [hdw] at h
      dsimp only at h
      unfold dlInnerCatch at h
      split at h <;> exact absurd h (by simp)

/-- Attempts that do not succeed leave the database untouched. -/
theorem attemptStep_db_or_success (env : IngestEnv) (req : DlReq) (url : String)
    (startTime now attempt : ℕ) (db : DB) :
    dbOfStep (attemptStep env req url startTime now attempt db) = db ∨
    ∃ res temp now1 db1 evA,
      attemptStep env req url startTime now attempt db =
        .stepSuccess res temp now1 db1 evA := by
  unfold attemptStep
  rcases hpoll : pollLoop env attempt startTime now 0 with ⟨pr, now0⟩
  dsimp only
  cases pr with
  | deadline => left; rfl
  | ready =>
    cases hdw : env.dlWait attempt with
    | fired fileName =>
      dsimp only
      by_cases hex : env.fileExists attempt = true
      · rw [if_pos hex]
        by_cases hsz : 0 < env.fileSize attempt
        · rw [if_pos hsz]
          rcases uploadToSupabaseStorage_spec env attempt db fileName
              (mkBookMeta req url fileName) with
            ⟨e0, huo, hup⟩ | ⟨path, e0, huo, hio, hup⟩ | ⟨path, row, huo, hio, hup, hrow⟩
          · rw [hup]
            dsimp only
            left
            unfold dlInnerCatch
            split <;> rfl
          · rw [hup]
            dsimp only
            left
            unfold dlInnerCatch
            split <;> rfl
          · rw [hup]
            dsimp only
            right
            exact ⟨_, _, _, _, _, rfl⟩
        · rw [if_neg hsz]
          left
          unfold dlInnerCatch
          split <;> rfl
      · rw [if_neg hex]
        left
        unfold dlInnerCatch
        split <;> rfl
    | timeoutPlaywright =>
      dsimp only
      left
      unfold dlInnerCatch
      split <;> rfl
    | timeoutRace =>
      dsimp only
      left
      unfold dlInnerCatch
      split <;> rfl
    | timeoutBackup =>
      dsimp only
      left
      unfold dlInnerCatch
      split <;> rfl

theorem countEv_append (x : Ev) (a b : List Ev) :
    countEv x (a ++ b) = countEv x a + countEv x b := by
  unfold countEv
  rw [List.filter_append, List.length_append]

theorem countAttempts_append (a b : List Ev) :
    countAttempts (a ++ b) = countAttempts a + countAttempts b := by
  unfold countAttempts
  rw [List.filter_append, List.length_append]

theorem countEv_zero_of_browserFree (x : Ev) (hx : isBrowserEv x = true) (l : List Ev)
    (h : ∀ e ∈ l, isBrowserEv e = false) : countEv x l = 0 := by
  unfold countEv
  have : l.filter (fun e => e == x) = [] := by
    rw [List.filter_eq_nil_iff]
    intro a ha hcontra
    have : a = x := by
      have := of_decide_eq_true hcontra
      exact this
    rw [this] at ha
    rw [h x ha] at hx
    exact Bool.false_ne_true hx
  rw [this]
  rfl

theorem countAttempts_zero_of_internal (l : List Ev)
    (h : ∀ e ∈ l, isAttemptStart e = false) : countAttempts l = 0 := by
  unfold countAttempts
  have : l.filter isAttemptStart = [] := by
    rw [List.filter_eq_nil_iff]
    intro a ha hcontra
    rw [h a ha] at hcontra
    exact Bool.false_ne_true hcontra
  rw [this]
  rfl

/-- Inversion of a successful run of the retry loop: some attempt had an
existing, non-empty file, its upload and insert both succeeded, the
database grew by exactly one row keyed on the requested URL, and the
verified size was recorded. -/
theorem dlLoop_success_spec (env : IngestEnv) (req : DlReq) (url : String) (startTime : ℕ) :
    ∀ (d retryCount now : ℕ) (db : DB) (ev : List Ev) (res : UploadOk) (temp : String)
      (now' : ℕ) (db' : DB) (ev' : List Ev),
      maxRetries - retryCount = d →
      dlLoop env req url startTime retryCount now db ev =
        .loopSuccess res temp now' db' ev' →
      ∃ attempt path row,
        env.fileExists attempt = true ∧ 0 < env.fileSize attempt ∧
        env.uploadOutcome attempt = .ok path ∧ env.insertOutcome attempt = .ok () ∧
        res.id = env.recordId attempt ∧ res.s3_bucket_url = env.publicUrlOf path ∧
        db' = db ++ [row] ∧ row.id = res.id ∧ row.s3_bucket_url = res.s3_bucket_url ∧
        row.download_url = jsOrNull url ∧
        Ev.verified (env.fileSize attempt) ∈ ev' := by
  intro d
  induction d with
  | zero =>
    intro retryCount now db ev res temp now' db' ev' hd h
    unfold dlLoop at h
    rw [dif_neg (by omega)] at h
    exact absurd h (by simp)
  | succ n ih =>
    intro retryCount now db ev res temp now' db' ev' hd h
    unfold dlLoop at h
    rw [dif_pos (by omega)] at h
    cases hstep : attemptStep env req url startTime now (retryCount + 1) db with
    | stepSuccess res0 temp0 now0 db0 evA =>
      rw [hstep] at h
      dsimp only at h
      obtain ⟨hres, htemp, hnow, hdb, hev⟩ := LoopRes.loopSuccess.inj h
      obtain ⟨hex, hsz, ⟨path, huo, hresval⟩, hio, ⟨row, hdbrow, hrowid, hrows3, hrowurl⟩, hver⟩ :=
        attemptStep_success_spec env req url startTime now (retryCount + 1) db
          res0 temp0 now0 db0 evA hstep
      refine ⟨retryCount + 1, path, row, hex, hsz, huo, hio, ?_, ?_, ?_, ?_, ?_, hrowurl, ?_⟩
      · rw [← hres, hresval]
      · rw [← hres, hresval]
      · rw [← hdb, hdbrow]
      · rw [← hres]; exact hrowid
      · rw [← hres]; exact hrows3
      · rw [← hev]; exact List.mem_append.mpr (Or.inr hver)
    | retryBreak now0 db0 evA =>
      rw [hstep] at h
      dsimp only at h
      have hdb0 : db0 = db := by
        rcases attemptStep_db_or_success env req url startTime now (retryCount + 1) db with
          hcase | ⟨r1, t1, n1, d1, a1, hcontra⟩
        · rw [hstep] at hcase; exact hcase
        · rw [hstep] at hcontra; exact absurd hcontra (by simp)
      subst hdb0
      exact ih (retryCount + 1) now0 db0 _ res temp now' db' ev' (by omega) h
    | raiseErr e0 now0 db0 evA =>
      rw [hstep] at h
      dsimp only at h
      have hdb0 : db0 = db := by
        rcases attemptStep_db_or_success env req url startTime now (retryCount + 1) db with
          hcase | ⟨r1, t1, n1, d1, a1, hcontra⟩
        · rw [hstep] at hcase; exact hcase
        · rw [hstep] at hcontra; exact absurd hcontra (by simp)
      subst hdb0
      by_cases hretry : dlOuterRetryable e0 = true
      · rw [if_pos hretry] at h
        by_cases hmax : retryCount + 1 ≥ maxRetries
        · rw [if_pos hmax] at h
          exact absurd h (by simp)
        · rw [if_neg hmax] at h
          by_cases hrel : env.reloadOk (retryCount + 1) = true
          · rw [if_pos hrel] at h
            exact ih (retryCount + 1) (now0 + 3000) db0 _ res temp now' db' ev' (by omega) h
          · rw [if_neg hrel] at h
            by_cases hnp : env.newPageOk (retryCount + 1) = true
            · rw [if_pos hnp] at h
              exact ih (retryCount + 1) now0 db0 _ res temp now' db' ev' (by omega) h
            · rw [if_neg hnp] at h
              exact absurd h (by simp)
      · rw [if_neg hretry] at h
        exact absurd h (by simp)

/-- A thrown (failed) run of the retry loop never touches the database. -/
theorem dlLoop_thrown_db (env : IngestEnv) (req : DlReq) (url : String) (startTime : ℕ) :
    ∀ (d retryCount now : ℕ) (db : DB) (ev : List Ev) (e : JsErr)
      (now' : ℕ) (db' : DB) (ev' : List Ev),
      maxRetries - retryCount = d →
      dlLoop env req url startTime retryCount now db ev = .thrown e now' db' ev' →
      db' = db := by
  intro d
  induction d with
  | zero =>
    intro retryCount now db ev e now' db' ev' hd h
    unfold dlLoop at h
    rw [dif_neg (by omega)] at h
    exact ((LoopRes.thrown.inj h).2.2.1).symm
  | succ n ih =>
    intro retryCount now db ev e now' db' ev' hd h
    unfold dlLoop at h
    rw [dif_pos (by omega)] at h
    cases hstep : attemptStep env req url startTime now (retryCount + 1) db with
    | stepSuccess res0 temp0 now0 db0 evA =>
      rw [hstep] at h
      dsimp only at h
      exact absurd h (by simp)
    | retryBreak now0 db0 evA =>
      rw [hstep] at h
      dsimp only at h
      have hdb0 : db0 = db := by
        rcases attemptStep_db_or_success env req url startTime now (retryCount + 1) db with
          hcase | ⟨r1, t1, n1, d1, a1, hcontra⟩
        · rw [hstep] at hcase; exact hcase
        · rw [hstep] at hcontra; exact absurd hcontra (by simp)
      subst hdb0
      exact ih (retryCount + 1) now0 db0 _ e now' db' ev' (by omega) h
    | raiseErr e0 now0 db0 evA =>
      rw [hstep] at h
      dsimp only at h
      have hdb0 : db0 = db := by
        rcases attemptStep_db_or_success env req url startTime now (retryCount + 1) db with
          hcase | ⟨r1, t1, n1, d1, a1, hcontra⟩
        · rw [hstep] at hcase; exact hcase
        · rw [hstep] at hcontra; exact absurd hcontra (by simp)
      subst hdb0
      by_cases hretry : dlOuterRetryable e0 = true
      · rw [if_pos hretry] at h
        by_cases hmax : retryCount + 1 ≥ maxRetries
        · rw [if_pos hmax] at h
          exact ((LoopRes.thrown.inj h).2.2.1).symm
        · rw [if_neg hmax] at h
          by_cases hrel : env.reloadOk (retryCount + 1) = true
          · rw [if_pos hrel] at h
            exact ih (retryCount + 1) (now0 + 3000) db0 _ e now' db' ev' (by omega) h
          · rw [if_neg hrel] at h
            by_cases hnp : env.newPageOk (retryCount + 1) = true
            · rw [if_pos hnp] at h
              exact ih (retryCount + 1) now0 db0 _ e now' db' ev' (by omega) h
            · rw [if_neg hnp] at h
              exact ((LoopRes.thrown.inj h).2.2.1).symm
      · rw [if_neg hretry] at h
        exact ((LoopRes.thrown.inj h).2.2.1).symm

theorem countEv_attemptStart (x : Ev) (hx : isBrowserEv x = true) (k : ℕ) :
    countEv x [Ev.attemptStart k] = 0 := by
  cases x <;> simp_all [countEv, isBrowserEv]

/-- Event accounting for the retry loop: it emits no browser events, and at
most `maxRetries - retryCount` further `attemptStart` events. -/
theorem dlLoop_events_spec (env : IngestEnv) (req : DlReq) (url : String) (startTime : ℕ) :
    ∀ (d retryCount now : ℕ) (db : DB) (ev : List Ev),
      maxRetries - retryCount = d →
      countEv .launch (evOfLoop (dlLoop env req url startTime retryCount now db ev)) =
        countEv .launch ev ∧
      countEv .closeBrowser (evOfLoop (dlLoop env req url startTime retryCount now db ev)) =
        countEv .closeBrowser ev ∧
      countAttempts (evOfLoop (dlLoop env req url startTime retryCount now db ev)) ≤
        countAttempts ev + d := by
  intro d
  induction d with
  | zero =>
    intro retryCount now db ev hd
    unfold dlLoop
    rw [dif_neg (by omega)]
    exact ⟨rfl, rfl, le_refl _⟩
  | succ n ih =>
    intro retryCount now db ev hd
    unfold dlLoop
    rw [dif_pos (by omega)]
    have hint := attemptStep_events_internal env req url startTime now (retryCount + 1) db
    cases hstep : attemptStep env req url startTime now (retryCount + 1) db with
    | stepSuccess res0 temp0 now0 db0 evA =>
      dsimp only
      rw [hstep] at hint
      have hevA : evA = evOfStep (.stepSuccess res0 temp0 now0 db0 evA) := rfl
      have hlaunch : countEv .launch evA = 0 :=
        countEv_zero_of_browserFree .launch rfl evA (fun e he => (hint e he).1)
      have hclose : countEv .closeBrowser evA = 0 :=
        countEv_zero_of_browserFree .closeBrowser rfl evA (fun e he => (hint e he).1)
      have hatt : countAttempts evA = 0 :=
        countAttempts_zero_of_internal evA (fun e he => (hint e he).2)
      refine ⟨?_, ?_, ?_⟩
      · simp only [evOfLoop, countEv_append, hlaunch, countEv_attemptStart .launch rfl]
        omega
      · simp only [evOfLoop, countEv_append, hclose, countEv_attemptStart .closeBrowser rfl]
        omega
      · simp only [evOfLoop, countAttempts_append, hatt]
        have h1 : countAttempts [Ev.attemptStart (retryCount + 1)] = 1 := rfl
        rw [h1]
        omega
    | retryBreak now0 db0 evA =>
      dsimp only
      rw [hstep] at hint
      have hlaunch : countEv .launch evA = 0 :=
        countEv_zero_of_browserFree .launch rfl evA (fun e he => (hint e he).1)
      have hclose : countEv .closeBrowser evA = 0 :=
        countEv_zero_of_browserFree .closeBrowser rfl evA (fun e he => (hint e he).1)
      have hatt : countAttempts evA = 0 :=
        countAttempts_zero_of_internal evA (fun e he => (hint e he).2)
      obtain ⟨ih1, ih2, ih3⟩ := ih (retryCount + 1) now0 db0
        (ev ++ [.attemptStart (retryCount + 1)] ++ evA) (by omega)
      refine ⟨?_, ?_, ?_⟩
      · rw [ih1]
        simp only [countEv_append, hlaunch, countEv_attemptStart .launch rfl]
        omega
      · rw [ih2]
        simp only [countEv_append, hclose, countEv_attemptStart .closeBrowser rfl]
        omega
      · refine le_trans ih3 ?_
        simp only [countAttempts_append, hatt]
        have h1 : countAttempts [Ev.attemptStart (retryCount + 1)] = 1 := rfl
        rw [h1]
        omega
    | raiseErr e0 now0 db0 evA =>
      dsimp only
      rw [hstep] at hint
      have hlaunch : countEv .launch evA = 0 :=
        countEv_zero_of_browserFree .launch rfl evA (fun e he => (hint e he).1)
      have hclose : countEv .closeBrowser evA = 0 :=
        countEv_zero_of_browserFree .closeBrowser rfl evA (fun e he => (hint e he).1)
      have hatt : countAttempts evA = 0 :=
        countAttempts_zero_of_internal evA (fun e he => (hint e he).2)
      have hbase :
          countEv .launch (ev ++ [Ev.attemptStart (retryCount + 1)] ++ evA) =
            countEv .launch ev ∧
          countEv .closeBrowser (ev ++ [Ev.attemptStart (retryCount + 1)] ++ evA) =
            countEv .closeBrowser ev ∧
          countAttempts (ev ++ [Ev.attemptStart (retryCount + 1)] ++ evA) =
            countAttempts ev + 1 := by
        refine ⟨?_, ?_, ?_⟩
        · simp only [countEv_append, hlaunch, countEv_attemptStart .launch rfl]
          omega
        · simp only [countEv_append, hclose, countEv_attemptStart .closeBrowser rfl]
          omega
        · simp only [countAttempts_append, hatt]
          have h1 : countAttempts [Ev.attemptStart (retryCount + 1)] = 1 := rfl
          rw [h1]
      by_cases hretry : dlOuterRetryable e0 = true
      · rw [if_pos hretry]
        by_cases hmax : retryCount + 1 ≥ maxRetries
        · rw [if_pos hmax]
          exact ⟨hbase.1, hbase.2.1, by rw [evOfLoop, hbase.2.2]; omega⟩
        · rw [if_neg hmax]
          by_cases hrel : env.reloadOk (retryCount + 1) = true
          · rw [if_pos hrel]
            obtain ⟨ih1, ih2, ih3⟩ := ih (retryCount + 1) (now0 + 3000) db0
              (ev ++ [.attemptStart (retryCount + 1)] ++ evA) (by omega)
            exact ⟨by rw [ih1, hbase.1], by rw [ih2, hbase.2.1],
              by refine le_trans ih3 ?_; rw [hbase.2.2]; omega⟩
          · rw [if_neg hrel]
            by_cases hnp : env.newPageOk (retryCount + 1) = true
            · rw [if_pos hnp]
              obtain ⟨ih1, ih2, ih3⟩ := ih (retryCount + 1) now0 db0
                (ev ++ [.attemptStart (retryCount + 1)] ++ evA) (by omega)
              exact ⟨by rw [ih1, hbase.1], by rw [ih2, hbase.2.1],
                by refine le_trans ih3 ?_; rw [hbase.2.2]; omega⟩
            · rw [if_neg hnp]
              exact ⟨hbase.1, hbase.2.1, by rw [evOfLoop, hbase.2.2]; omega⟩
      · rw [if_neg hretry]
        exact ⟨hbase.1, hbase.2.1, by rw [evOfLoop, hbase.2.2]; omega⟩

/-- A zero-byte downloaded file: the scratch file is deleted and the error
`Downloaded file is empty` is raised; it matches neither retryable-error
test (both check for timeout-style messages only), so the loop terminates
immediately with it, performing no further attempt. -/
theorem dlLoop_zero_byte (env : IngestEnv) (req : DlReq) (url : String)
    (startTime retryCount now now1 : ℕ) (fname : String) (db : DB) (ev : List Ev)
    (hlt : retryCount < maxRetries)
    (hpoll : pollLoop env (retryCount + 1) startTime now 0 = (.ready, now1))
    (hdw : env.dlWait (retryCount + 1) = .fired fname)
    (hex : env.fileExists (retryCount + 1) = true)
    (hsz : env.fileSize (retryCount + 1) = 0) :
    dlLoop env req url startTime retryCount now db ev =
      .thrown ⟨"Error", "Downloaded file is empty"⟩
        (now1 + env.dlTime (retryCount + 1) + 1000) db
        (ev ++ [.attemptStart (retryCount + 1)] ++
          [.saveFile (tempName env now1 fname), .deleteFile (tempName env now1 fname)]) := by
  have hstep : attemptStep env req url startTime now (retryCount + 1) db =
      .raiseErr ⟨"Error", "Downloaded file is empty"⟩
        (now1 + env.dlTime (retryCount + 1) + 1000) db
        [.saveFile (tempName env now1 fname), .deleteFile (tempName env now1 fname)] := by
    unfold attemptStep
    rw [hpoll]
    dsimp only
    rw [hdw]
    dsimp only
    rw [if_pos hex, if_neg (by omega : ¬ 0 < env.fileSize (retryCount + 1))]
    unfold dlInnerCatch
    rw [if_neg (by decide :
      ¬ dlInnerRetryable ⟨"Error", "Downloaded file is empty"⟩ = true)]
  unfold dlLoop
  rw [dif_pos hlt, hstep]
  dsimp only
  rw [if_neg (by decide :
    ¬ dlOuterRetryable ⟨"Error", "Downloaded file is empty"⟩ = true)]

/-- Inversion of a 200 `created` response of the download endpoint. -/
theorem booksDownload_created_spec (env : IngestEnv) (db : DB) (req : DlReq)
    (m id s3 : String) (db' : DB) (ev' : List Ev)
    (h : booksDownload env db req = (.created m id s3, db', ev')) :
    ∃ u, req.url = some u ∧ u ≠ "" ∧ urlInvalid req.url = false ∧
      checkBookExists db u = .ok none ∧
      ∃ attempt path row,
        env.fileExists attempt = true ∧ 0 < env.fileSize attempt ∧
        env.uploadOutcome attempt = .ok path ∧ env.insertOutcome attempt = .ok () ∧
        id = env.recordId attempt ∧ s3 = env.publicUrlOf path ∧
        db' = db ++ [row] ∧ row.id = id ∧ row.s3_bucket_url = s3 ∧
        row.download_url = some u ∧
        Ev.verified (env.fileSize attempt) ∈ ev' := by
  unfold booksDownload at h
  by_cases hval : urlInvalid req.url = true
  · rw [if_pos hval] at h
    simp [Prod.mk.injEq] at h
  · rw [if_neg hval] at h
    obtain ⟨u, hu⟩ : ∃ u, req.url = some u := by
      cases hur : req.url with
      | none => rw [hur] at hval; simp [urlInvalid] at hval
      | some v => exact ⟨v, rfl⟩
    have hune : u ≠ "" := by
      intro hcontra
      apply hval
      rw [hu, hcontra]
      decide
    rw [hu] at h
    dsimp only [Option.getD] at h
    cases hdb : checkBookExists db u with
    | error e =>
      rw [hdb] at h
      simp [Prod.mk.injEq] at h
    | ok o =>
      rw [hdb] at h
      cases o with
      | some r =>
        dsimp only at h
        simp [Prod.mk.injEq] at h
      | none =>
        dsimp only at h
        cases hmk : env.mkdirOutcome with
        | error e => rw [hmk] at h; simp [Prod.mk.injEq] at h
        | ok u1 =>
          rw [hmk] at h
          dsimp only at h
          cases hla : env.launchOutcome with
          | error e => rw [hla] at h; simp [Prod.mk.injEq] at h
          | ok u2 =>
            rw [hla] at h
            dsimp only at h
            cases hgo : env.gotoOutcome with
            | error e => rw [hgo] at h; simp [Prod.mk.injEq] at h
            | ok u3 =>
              rw [hgo] at h
              dsimp only at h
              cases hloop : dlLoop env req u 0 0 0 db [] with
              | thrown e n1 db1 ev1 =>
                rw [hloop] at h
                simp [Prod.mk.injEq] at h
              | loopSuccess res temp n1 db1 ev1 =>
                rw [hloop] at h
                dsimp only at h
                simp only [Prod.mk.injEq, DlResp.created.injEq] at h
                obtain ⟨⟨hm, hid, hs3⟩, hdbeq, heveq⟩ := h
                obtain ⟨attempt, path, row, hex, hsz, huo, hio, hrid, hrs3,
                    hdbrow, hrowid, hrows3, hrowurl, hver⟩ :=
                  dlLoop_success_spec env req u 0 maxRetries 0 0 db []
                    res temp n1 db1 ev1 rfl hloop
                have hvalf : urlInvalid req.url = false := by
                  revert hval
                  cases urlInvalid req.url <;> simp
                refine ⟨u, hu, hune, hvalf, hdb, attempt, path, row, hex, hsz, huo, hio,
                  ?_, ?_, ?_, ?_, ?_, ?_, ?_⟩
                · rw [← hid]; exact hrid
                · rw [← hs3]; exact hrs3
                · rw [← hdbeq]; exact hdbrow
                · rw [← hid]; exact hrowid
                · rw [← hs3]; exact hrows3
                · rw [hrowurl]
                  unfold jsOrNull
                  rw [if_neg hune]
                · rw [← heveq]
                  exact List.mem_append.mpr (Or.inl (List.mem_append.mpr (Or.inr hver)))

/-! ## C1: ingest is idempotent on the download URL -/

/-- C1. If a first `POST /books/download` for URL `u` (absent from the
database) succeeds, then exactly one row with `download_url = u` is
persisted, and a second identical request — under any environment at all —
takes the dedup path: it returns 200 success with the first call's id and
storage URL, leaves the database unchanged, and its whole event trace is
the single dedup check (no browser launch, no download, no upload). -/
theorem ingest_idempotent_on_url (env1 env2 : IngestEnv) (db0 : DB) (req : DlReq)
    (u m id s3 : String) (db1 : DB) (ev1 : List Ev)
    (hu : req.url = some u)
    (h0 : ∀ r ∈ db0, r.download_url ≠ some u)
    (h1 : booksDownload env1 db0 req = (.created m id s3, db1, ev1)) :
    (db1.filter (fun r => r.download_url = some u)).length = 1 ∧
    booksDownload env2 db1 req =
      (.dedupHit "Book already exists in database" id s3, db1, [.dedupCheck]) := by
  obtain ⟨u', hu', hune, hvalf, hdb, attempt, path, row, hex, hsz, huo, hio,
      hid, hs3, hdbrow, hrowid, hrows3, hrowurl, hver⟩ :=
    booksDownload_created_spec env1 db0 req m id s3 db1 ev1 h1
  have huu : u' = u := by
    rw [hu] at hu'
    exact (Option.some.inj hu').symm
  subst huu
  have hfilter0 : db0.filter (fun r => r.download_url = some u') = [] := by
    rw [List.filter_eq_nil_iff]
    intro r hr
    simp only [decide_eq_true_eq]
    exact h0 r hr
  have hfilter1 : db1.filter (fun r => r.download_url = some u') = [row] := by
    rw [hdbrow, List.filter_append, hfilter0]
    simp [hrowurl]
  constructor
  · rw [hfilter1]
    rfl
  · unfold booksDownload
    rw [if_neg (by simp [hvalf])]
    rw [hu]
    dsimp only [Option.getD]
    have hdb1 : checkBookExists db1 u' = .ok (some row) := by
      unfold checkBookExists
      rw [hfilter1]
    rw [hdb1]
    dsimp only
    rw [hrowid, hrows3]

/-! ## C4: no success on a zero-byte file -/

/-- C4. A 200 `created` response can only arise from an attempt whose saved
file existed with size strictly greater than zero (the verified size is
recorded in the trace); and an attempt that produces an existing zero-byte
file deletes the scratch file and makes the whole loop terminate at once
with the `Downloaded file is empty` failure — never a success response. -/
theorem success_requires_nonempty_file :
    (∀ (env : IngestEnv) (db : DB) (req : DlReq) (m id s3 : String)
        (db' : DB) (ev' : List Ev),
        booksDownload env db req = (.created m id s3, db', ev') →
        ∃ attempt, env.fileExists attempt = true ∧ 0 < env.fileSize attempt ∧
          Ev.verified (env.fileSize attempt) ∈ ev') ∧
    (∀ (env : IngestEnv) (req : DlReq) (url : String)
        (startTime retryCount now now1 : ℕ) (fname : String) (db : DB) (ev : List Ev),
        retryCount < maxRetries →
        pollLoop env (retryCount + 1) startTime now 0 = (.ready, now1) →
        env.dlWait (retryCount + 1) = .fired fname →
        env.fileExists (retryCount + 1) = true →
        env.fileSize (retryCount + 1) = 0 →
        dlLoop env req url startTime retryCount now db ev =
          .thrown ⟨"Error", "Downloaded file is empty"⟩
            (now1 + env.dlTime (retryCount + 1) + 1000) db
            (ev ++ [.attemptStart (retryCount + 1)] ++
              [.saveFile (tempName env now1 fname),
               .deleteFile (tempName env now1 fname)])) := by
  constructor
  · intro env db req m id s3 db' ev' h
    obtain ⟨u, -, -, -, -, attempt, path, row, hex, hsz, -, -, -, -, -, -, -, -, hver⟩ :=
      booksDownload_created_spec env db req m id s3 db' ev' h
    exact ⟨attempt, hex, hsz, hver⟩
  · intro env req url startTime retryCount now now1 fname db ev hlt hpoll hdw hex hsz
    exact dlLoop_zero_byte env req url startTime retryCount now now1 fname db ev
      hlt hpoll hdw hex hsz

/-! ## C8: compensating deletion when the insert fails after upload -/

/-- C8. When the upload succeeds and the database insert fails, the helper
issues the best-effort deletion of the uploaded storage object
(`removeObject` event, after the `upload` event) and surfaces the insert
error without touching the database; consequently a run whose inserts all
fail can never produce a success (`created`) response. -/
theorem insert_failure_compensated :
    (∀ (env : IngestEnv) (attempt : ℕ) (db : DB) (fn : String) (meta : BookMeta)
        (path : String) (e : JsErr),
        env.uploadOutcome attempt = .ok path →
        env.insertOutcome attempt = .error e →
        uploadToSupabaseStorage env attempt db fn meta =
          (.error e, db, [.upload path, .removeObject path])) ∧
    (∀ (env : IngestEnv) (db : DB) (req : DlReq) (m id s3 : String)
        (db' : DB) (ev' : List Ev),
        (∀ a, env.insertOutcome a ≠ .ok ()) →
        booksDownload env db req ≠ (.created m id s3, db', ev')) := by
  constructor
  · intro env attempt db fn meta path e huo hio
    rcases uploadToSupabaseStorage_spec env attempt db fn meta with
      ⟨e0, huo', hup⟩ | ⟨path', e0, huo', hio', hup⟩ | ⟨path', row, huo', hio', hup, -⟩
    · rw [huo] at huo'
      exact absurd huo' (by simp)
    · rw [huo] at huo'
      have hpath : path' = path := (Except.ok.inj huo').symm
      rw [hio] at hio'
      have he : e0 = e := (Except.error.inj hio').symm
      rw [hup, hpath, he]
    · rw [hio] at hio'
      exact absurd hio' (by simp)
  · intro env db req m id s3 db' ev' hins hcontra
    obtain ⟨u, -, -, -, -, attempt, path, row, -, -, -, hio, -⟩ :=
      booksDownload_created_spec env db req m id s3 db' ev' hcontra
    exact hins attempt hio

/-! ## C5: an empty file is in fact NOT retried -/

def reqD : DlReq :=
  { url := some "http://host/book.pdf", title := some "T", author := some "A",
    format := some "pdf", category := none, coverImageUrl := none }

def envC5 : IngestEnv :=
  { envW with fileSize := fun _ => 0 }

/-- Counterexample to C5 as stated: with the trigger ready at once, the
download fired, and the saved file present but zero bytes — and the whole
retry budget still available (only 1 of 3 attempts used) — the endpoint
does NOT retry: it terminates immediately with the 500
`Downloaded file is empty` failure after a single attempt. -/
theorem empty_file_retried_counterexample :
    booksDownload envC5 [] reqD =
      (.failure "Download failed" "Downloaded file is empty", [],
       [.dedupCheck, .launch, .attemptStart 1,
        .saveFile "/tmp/downloads/temp_0_book.pdf",
        .deleteFile "/tmp/downloads/temp_0_book.pdf", .closeBrowser]) ∧
    countAttempts (booksDownload envC5 [] reqD).2.2 = 1 ∧
    1 < maxRetries := by
  have h : booksDownload envC5 [] reqD =
      (.failure "Download failed" "Downloaded file is empty", [],
       [.dedupCheck, .launch, .attemptStart 1,
        .saveFile "/tmp/downloads/temp_0_book.pdf",
        .deleteFile "/tmp/downloads/temp_0_book.pdf", .closeBrowser]) := by
    simp [booksDownload, dlLoop, attemptStep, pollLoop, uploadToSupabaseStorage,
      envC5, envW, reqD, checkBookExists, urlInvalid, strStartsWith, maxRetries,
      maxWaitTime, mkBookMeta, dlInnerCatch, dlInnerRetryable, dlOuterRetryable,
      strIncludes, listHasInfix, dlWaitErr, saveSanitize, tempName]
    decide
  refine ⟨h, ?_, by decide⟩
  rw [h]
  decide

/-- C5 amended: a zero-byte downloaded file is deleted and is a
NON-retryable, terminal failure. The raised `Downloaded file is empty`
error matches neither the inner nor the outer retryable-error test, so the
loop ends at once with it: exactly one more attempt is recorded however
much retry budget remains, and the run's database is unchanged. -/
theorem empty_file_terminal_failure :
    ∀ (env : IngestEnv) (req : DlReq) (url : String)
      (startTime retryCount now now1 : ℕ) (fname : String) (db : DB) (ev : List Ev),
      retryCount < maxRetries →
      pollLoop env (retryCount + 1) startTime now 0 = (.ready, now1) →
      env.dlWait (retryCount + 1) = .fired fname →
      env.fileExists (retryCount + 1) = true →
      env.fileSize (retryCount + 1) = 0 →
      ∃ e : JsErr,
        e.message = "Downloaded file is empty" ∧
        dlInnerRetryable e = false ∧ dlOuterRetryable e = false ∧
        dlLoop env req url startTime retryCount now db ev =
          .thrown e (now1 + env.dlTime (retryCount + 1) + 1000) db
            (ev ++ [.attemptStart (retryCount + 1)] ++
              [.saveFile (tempName env now1 fname),
               .deleteFile (tempName env now1 fname)]) ∧
        countAttempts
            (evOfLoop (dlLoop env req url startTime retryCount now db ev)) =
          countAttempts ev + 1 := by
  intro env req url startTime retryCount now now1 fname db ev hlt hpoll hdw hex hsz
  have h := dlLoop_zero_byte env req url startTime retryCount now now1 fname db ev
    hlt hpoll hdw hex hsz
  refine ⟨⟨"Error", "Downloaded file is empty"⟩, rfl, by decide, by decide, h, ?_⟩
  rw [h]
  simp only [evOfLoop, countAttempts_append]
  have h1 : countAttempts [Ev.attemptStart (retryCount + 1)] = 1 := rfl
  have h2 : countAttempts [Ev.saveFile (tempName env now1 fname),
      Ev.deleteFile (tempName env now1 fname)] = 0 := rfl
  rw [h1, h2]

/-! ## C6: the retry loop always terminates within its bounds -/

/-- C6. Every download request performs at most `maxRetries` attempts
before reaching a terminal response (the loop recursion itself is
well-founded on `maxRetries - retryCount`, with `startTime` fixed before
the first attempt and never reset); and once the wall-clock deadline has
passed, the poll phase gives up immediately — no further polling wait. -/
theorem download_retries_bounded :
    (∀ (env : IngestEnv) (db : DB) (req : DlReq),
        countAttempts (booksDownload env db req).2.2 ≤ maxRetries) ∧
    (∀ (env : IngestEnv) (attempt startTime now : ℕ),
        maxWaitTime < now - startTime →
        pollLoop env attempt startTime now 0 = (.deadline, now)) := by
  constructor
  · intro env db req
    unfold booksDownload
    by_cases hval : urlInvalid req.url = true
    · rw [if_pos hval]
      dsimp only
      decide
    · rw [if_neg hval]
      dsimp only
      cases hdb : checkBookExists db (req.url.getD "") with
      | error e =>
        dsimp only
        decide
      | ok o =>
        cases o with
        | some r =>
          dsimp only
          decide
        | none =>
          dsimp only
          cases env.mkdirOutcome with
          | error e =>
            dsimp only
            decide
          | ok u1 =>
            dsimp only
            cases env.launchOutcome with
            | error e =>
              dsimp only
              decide
            | ok u2 =>
              dsimp only
              cases env.gotoOutcome with
              | error e =>
                dsimp only
                decide
              | ok u3 =>
                dsimp only
                obtain ⟨-, -, h3⟩ := dlLoop_events_spec env req (req.url.getD "") 0
                  maxRetries 0 0 db [] rfl
                cases hloop : dlLoop env req (req.url.getD "") 0 0 0 db [] with
                | loopSuccess res temp n1 db1 ev1 =>
                  rw [hloop] at h3
                  dsimp only [evOfLoop] at h3
                  dsimp only
                  simp only [countAttempts_append]
                  have e1 : countAttempts [Ev.dedupCheck, Ev.launch] = 0 := rfl
                  have e2 : countAttempts [Ev.deleteFile temp, Ev.closeBrowser] = 0 := rfl
                  rw [e1, e2]
                  have e3 : countAttempts ([] : List Ev) = 0 := rfl
                  rw [e3] at h3
                  omega
                | thrown e n1 db1 ev1 =>
                  rw [hloop] at h3
                  dsimp only [evOfLoop] at h3
                  dsimp only
                  simp only [countAttempts_append]
                  have e1 : countAttempts [Ev.dedupCheck, Ev.launch] = 0 := rfl
                  have e2 : countAttempts [Ev.closeBrowser] = 0 := rfl
                  rw [e1, e2]
                  have e3 : countAttempts ([] : List Ev) = 0 := rfl
                  rw [e3] at h3
                  omega
  · intro env attempt startTime now hnow
    unfold pollLoop
    rw [dif_pos hnow]

/-! ## C7: browsers are closed exactly once, and launched only when needed -/

/-- C7. For both endpoints the event trace of every request contains
exactly as many browser closes as launches, and at most one launch; a
search rejected for invalid input emits no events at all (hence no
launch), and a download request that short-circuits on invalid input or
on a dedup hit launches no browser. -/
theorem browser_closed_exactly_once (senv : SearchEnv) (sreq : SearchReq)
    (denv : IngestEnv) (db : DB) (dreq : DlReq) :
    (countEv .launch (booksSearch senv sreq).2 =
       countEv .closeBrowser (booksSearch senv sreq).2 ∧
     countEv .launch (booksSearch senv sreq).2 ≤ 1) ∧
    (countEv .launch (booksDownload denv db dreq).2.2 =
       countEv .closeBrowser (booksDownload denv db dreq).2.2 ∧
     countEv .launch (booksDownload denv db dreq).2.2 ≤ 1) ∧
    ((jsOrOpt sreq.query "" = "" ∨
        isBookSource (jsOrOpt sreq.source DEFAULT_SOURCE) = false) →
      (booksSearch senv sreq).2 = []) ∧
    ((urlInvalid dreq.url = true ∨
        (∃ r, checkBookExists db (dreq.url.getD "") = .ok (some r))) →
      countEv .launch (booksDownload denv db dreq).2.2 = 0) := by
  have hsearch : (booksSearch senv sreq).2 = [] ∨
      (booksSearch senv sreq).2 = [.launch, .closeBrowser] := by
    unfold booksSearch
    by_cases hq : jsOrOpt sreq.query "" = ""
    · rw [if_pos hq]
      exact Or.inl rfl
    · rw [if_neg hq]
      by_cases hs : isBookSource (jsOrOpt sreq.source DEFAULT_SOURCE) = true
      · rw [if_neg (by simp [hs])]
        cases senv.launchOutcome with
        | error e => exact Or.inl rfl
        | ok u =>
          dsimp only
          cases scrapedBooks senv (jsOrOpt sreq.source DEFAULT_SOURCE) with
          | error e => exact Or.inr rfl
          | ok allBooks => exact Or.inr rfl
      · rw [if_pos (by simpa using hs)]
        exact Or.inl rfl
  refine ⟨?_, ?_, ?_, ?_⟩
  · rcases hsearch with h | h <;> rw [h] <;> exact ⟨rfl, by decide⟩
  · unfold booksDownload
    by_cases hval : urlInvalid dreq.url = true
    · rw [if_pos hval]
      dsimp only
      exact ⟨rfl, by decide⟩
    · rw [if_neg hval]
      dsimp only
      cases checkBookExists db (dreq.url.getD "") with
      | error e =>
        dsimp only
        exact ⟨rfl, by decide⟩
      | ok o =>
        cases o with
        | some r =>
          dsimp only
          exact ⟨rfl, by decide⟩
        | none =>
          dsimp only
          cases denv.mkdirOutcome with
          | error e =>
            dsimp only
            exact ⟨rfl, by decide⟩
          | ok u1 =>
            dsimp only
            cases denv.launchOutcome with
            | error e =>
              dsimp only
              exact ⟨rfl, by decide⟩
            | ok u2 =>
              dsimp only
              cases denv.gotoOutcome with
              | error e =>
                dsimp only
                exact ⟨rfl, by decide⟩
              | ok u3 =>
                dsimp only
                obtain ⟨h1, h2, -⟩ := dlLoop_events_spec denv dreq (dreq.url.getD "") 0
                  maxRetries 0 0 db [] rfl
                cases hloop : dlLoop denv dreq (dreq.url.getD "") 0 0 0 db [] with
                | loopSuccess res temp n1 db1 ev1 =>
                  rw [hloop] at h1 h2
                  dsimp only [evOfLoop] at h1 h2
                  dsimp only
                  simp only [countEv_append]
                  have c1 : countEv Ev.launch [Ev.dedupCheck, Ev.launch] = 1 := rfl
                  have c2 : countEv Ev.closeBrowser [Ev.dedupCheck, Ev.launch] = 0 := rfl
                  have c3 : countEv Ev.launch [Ev.deleteFile temp, Ev.closeBrowser] = 0 := by
                    simp [countEv]
                  have c4 : countEv Ev.closeBrowser [Ev.deleteFile temp, Ev.closeBrowser] = 1 := by
                    simp [countEv]
                  have c5 : countEv Ev.launch ([] : List Ev) = 0 := rfl
                  have c6 : countEv Ev.closeBrowser ([] : List Ev) = 0 := rfl
                  rw [c5] at h1
                  rw [c6] at h2
                  rw [c1, c2, c3, c4, h1, h2]
                  exact ⟨rfl, by omega⟩
                | thrown e n1 db1 ev1 =>
                  rw [hloop] at h1 h2
                  dsimp only [evOfLoop] at h1 h2
                  dsimp only
                  simp only [countEv_append]
                  have c1 : countEv Ev.launch [Ev.dedupCheck, Ev.launch] = 1 := rfl
                  have c2 : countEv Ev.closeBrowser [Ev.dedupCheck, Ev.launch] = 0 := rfl
                  have c3 : countEv Ev.launch [Ev.closeBrowser] = 0 := rfl
                  have c4 : countEv Ev.closeBrowser [Ev.closeBrowser] = 1 := rfl
                  have c5 : countEv Ev.launch ([] : List Ev) = 0 := rfl
                  have c6 : countEv Ev.closeBrowser ([] : List Ev) = 0 := rfl
                  rw [c5] at h1
                  rw [c6] at h2
                  rw [c1, c2, c3, c4, h1, h2]
                  exact ⟨rfl, by omega⟩
  · intro hbad
    unfold booksSearch
    rcases hbad with hq | hs
    · rw [if_pos hq]
    · by_cases hq : jsOrOpt sreq.query "" = ""
      · rw [if_pos hq]
      · rw [if_neg hq, if_pos (by simp [hs])]
  · intro hshort
    unfold booksDownload
    rcases hshort with hval | ⟨r, hdup⟩
    · rw [if_pos hval]
      dsimp only
      decide
    · by_cases hval : urlInvalid dreq.url = true
      · rw [if_pos hval]
        dsimp only
        decide
      · rw [if_neg hval]
        dsimp only
        rw [hdup]
        dsimp only
        decide

/-! ## Concrete runs for the witnesses -/

def rowW : BookRow :=
  { id := "id-1", title := "T", author := "A", format := "pdf",
    category := none, book_url := some "http://host/book.pdf",
    cover_image_url := none, download_url := some "http://host/book.pdf",
    s3_bucket_id := "uuid1_book.pdf",
    s3_bucket_url := "https://supabase.example/storage/books/uuid1_book.pdf" }

def evRun1 : List Ev :=
  [.dedupCheck, .launch, .attemptStart 1,
   .saveFile "/tmp/downloads/temp_0_book.pdf", .verified 1024,
   .upload "uuid1_book.pdf", .insertRow "id-1",
   .deleteFile "/tmp/downloads/temp_0_book.pdf", .closeBrowser]

theorem booksDownload_envW_run :
    booksDownload envW [] reqD =
      (.created "Book downloaded and uploaded successfully" "id-1"
         "https://supabase.example/storage/books/uuid1_book.pdf", [rowW], evRun1) := by
  simp [booksDownload, dlLoop, attemptStep, pollLoop, uploadToSupabaseStorage,
    envW, reqD, rowW, evRun1, checkBookExists, urlInvalid, strStartsWith,
    maxRetries, maxWaitTime, mkBookMeta, tempName, saveSanitize, stripExt,
    sanitizeFilename, jsOrOpt, jsOrNull, jsOrNullOpt, collapseSpaces,
    squeezeUnderscores, trimUnderscores, jsIsWordChar, jsIsSpace, dlInnerCatch]
  decide

/-- Witness for C1: after the concrete successful first ingest, the second
identical request hits the dedup path. -/
theorem ingest_idempotent_on_url_witness :
    (([rowW].filter (fun r => r.download_url = some "http://host/book.pdf")).length = 1 ∧
     booksDownload envW [rowW] reqD =
       (.dedupHit "Book already exists in database" "id-1"
          "https://supabase.example/storage/books/uuid1_book.pdf", [rowW], [.dedupCheck])) :=
  ingest_idempotent_on_url envW envW [] reqD "http://host/book.pdf"
    "Book downloaded and uploaded successfully" "id-1"
    "https://supabase.example/storage/books/uuid1_book.pdf" [rowW] evRun1
    rfl (by simp) booksDownload_envW_run

/-- Witness for C4 at the concrete successful run (file size 1024). -/
theorem success_requires_nonempty_file_witness :
    ∃ attempt, envW.fileExists attempt = true ∧ 0 < envW.fileSize attempt ∧
      Ev.verified (envW.fileSize attempt) ∈ evRun1 :=
  success_requires_nonempty_file.1 envW [] reqD
    "Book downloaded and uploaded successfully" "id-1"
    "https://supabase.example/storage/books/uuid1_book.pdf" [rowW] evRun1
    booksDownload_envW_run

/-- Witness for the amended C5 at the concrete zero-byte environment. -/
theorem empty_file_terminal_failure_witness :
    ∃ e : JsErr,
      e.message = "Downloaded file is empty" ∧
      dlInnerRetryable e = false ∧ dlOuterRetryable e = false ∧
      dlLoop envC5 reqD "http://host/book.pdf" 0 0 0 [] [] =
        .thrown e (0 + envC5.dlTime (0 + 1) + 1000) []
          ([] ++ [.attemptStart (0 + 1)] ++
            [.saveFile (tempName envC5 0 "book.pdf"),
             .deleteFile (tempName envC5 0 "book.pdf")]) ∧
      countAttempts (evOfLoop (dlLoop envC5 reqD "http://host/book.pdf" 0 0 0 [] [])) =
        countAttempts [] + 1 :=
  empty_file_terminal_failure envC5 reqD "http://host/book.pdf" 0 0 0 0 "book.pdf" [] []
    (by decide)
    (by simp [pollLoop, envC5, envW, maxWaitTime])
    rfl rfl rfl

/-- Witness for C6: a poll entered after the deadline gives up at once. -/
theorem download_retries_bounded_witness :
    countAttempts (booksDownload envW [] reqD).2.2 ≤ maxRetries ∧
    pollLoop envW 1 0 130001 0 = (.deadline, 130001) :=
  ⟨download_retries_bounded.1 envW [] reqD,
   download_retries_bounded.2 envW 1 0 130001 (by decide)⟩

/-- Witness for C7: an invalid search emits no events, a dedup-hit ingest
launches no browser. -/
theorem browser_closed_exactly_once_witness :
    (booksSearch searchEnvW
        { query := some "", page := none, limit := none, source := none }).2 = [] ∧
    countEv .launch (booksDownload envW [rowW] reqD).2.2 = 0 :=
  ⟨(browser_closed_exactly_once searchEnvW
      { query := some "", page := none, limit := none, source := none }
      envW [rowW] reqD).2.2.1 (Or.inl rfl),
   (browser_closed_exactly_once searchEnvW
      { query := some "", page := none, limit := none, source := none }
      envW [rowW] reqD).2.2.2 (Or.inr ⟨rowW, rfl⟩)⟩

def envC8 : IngestEnv :=
  { envW with insertOutcome := fun _ => .error ⟨"Error", "duplicate key value"⟩ }

/-- Witness for C8 at a concrete failing insert. -/
theorem insert_failure_compensated_witness :
    uploadToSupabaseStorage envC8 1 [] "book.pdf"
        (mkBookMeta reqD "http://host/book.pdf" "book.pdf") =
      (.error ⟨"Error", "duplicate key value"⟩, [],
       [.upload "uuid1_book.pdf", .removeObject "uuid1_book.pdf"]) ∧
    booksDownload envC8 [] reqD ≠
      (.created "Book downloaded and uploaded successfully" "id-1"
         "https://supabase.example/storage/books/uuid1_book.pdf", [rowW], evRun1) :=
  ⟨insert_failure_compensated.1 envC8 1 [] "book.pdf"
      (mkBookMeta reqD "http://host/book.pdf" "book.pdf")
      "uuid1_book.pdf" ⟨"Error", "duplicate key value"⟩ rfl rfl,
   insert_failure_compensated.2 envC8 [] reqD
      "Book downloaded and uploaded successfully" "id-1"
      "https://supabase.example/storage/books/uuid1_book.pdf" [rowW] evRun1
      (fun a => by simp [envC8, envW])⟩

end Bookzify
